import Mathlib

/-!
Shallow embedding of the two scripts of `Edools/s3-concurrent-operations`
(`src/s3_concurrent_downloader.py`, `src/s3_concurrent_uploader.py`).

Conventions of the embedding:
* `subprocess.run` is modelled by an explicit behaviour of the spawned
  process (`ProcBehavior`): either it runs for some duration and finishes
  with a return code and captured stdout/stderr, or the surrounding `try`
  block raises an exception (`ProcBehavior.raises` also covers the other
  exceptions that the per-item `except Exception` handler can see).
  `subprocess_run t` turns a behaviour into what the Python call yields:
  `TimeoutExpired` when the duration exceeds the `timeout=t` argument.
* The thread pool (`ThreadPoolExecutor` + `as_completed`) is modelled by
  processing the submitted items of the work list in sequence: the
  aggregate quantities the claims are about (outcome counts, counters,
  error list length, per-step progress values) are invariant under the
  completion order, and the theorems below are universally quantified
  over the item list, hence hold for every completion permutation.
* Python side effects are made explicit: the mutable counters of the
  `S3Downloader` / `S3Uploader` objects are threaded as state, and the
  progress value printed inside the lock is returned as a field of the
  per-item step record.
* `pathlib.Path` on POSIX is modelled on strings: components are the
  `/`-separated pieces with empty pieces and `"."` dropped, `name` is the
  last component, and `str(Path(s))` re-joins the components (with the
  `//` root special case of CPython's posix flavour).
* Python whitespace handling (`str.strip()`, `str.split()`) is modelled
  on the ASCII whitespace characters, which is what the AWS CLI output
  handled by the scripts contains.
-/

/-- Characters treated as whitespace by `str.strip()` / `str.split()`
(ASCII subset: space, tab, newline, carriage return, vertical tab,
form feed). -/
def pyIsSpace (c : Char) : Bool :=
  c == ' ' || c == '\t' || c == '\n' || c == '\r' || c.toNat == 11 || c.toNat == 12

/-- Python `str.strip()` on a character list. -/
def pyStripChars (l : List Char) : List Char :=
  ((l.dropWhile pyIsSpace).reverse.dropWhile pyIsSpace).reverse

/-- Python `str.strip()`. -/
def pyStrip (s : String) : String := String.mk (pyStripChars s.toList)

/-- Worker for `pySplit`; the second argument is the reversed current token. -/
def pySplitAux : List Char → List Char → List String
  | [], acc => if acc.isEmpty then [] else [String.mk acc.reverse]
  | c :: cs, acc =>
      if pyIsSpace c then
        if acc.isEmpty then pySplitAux cs []
        else String.mk acc.reverse :: pySplitAux cs []
      else pySplitAux cs (c :: acc)

/-- Python `str.split()` with no separator: split on runs of whitespace,
discarding empty tokens. -/
def pySplit (s : String) : List String := pySplitAux s.toList []

/-- Python `a or b` for strings (used for `stderr.strip() or stdout.strip()`):
the first operand when it is non-empty (truthy), otherwise the second. -/
def pyOrStr (a b : String) : String := if a != "" then a else b

/-- Worker for `splitChar`; the accumulator is the reversed current
segment. -/
def splitCharAux (sep : Char) : List Char → List Char → List String
  | [], acc => [String.mk acc.reverse]
  | c :: cs, acc =>
      if c == sep then String.mk acc.reverse :: splitCharAux sep cs []
      else splitCharAux sep cs (c :: acc)

/-- Python `s.split(sep)` for a one-character separator (also the
behaviour of splitting on `"/"` or `"\n"`): split at every separator
occurrence, keeping empty segments. -/
def splitChar (sep : Char) (s : String) : List String := splitCharAux sep s.toList []

/-- Join a list of strings with a separator (used to rebuild paths and
the space-joined object keys). -/
def joinWith (sep : String) : List String → String
  | [] => ""
  | [x] => x
  | x :: y :: xs => x ++ sep ++ joinWith sep (y :: xs)

/-- Python `s.rstrip("/")`. -/
def rstripSlash (s : String) : String :=
  String.mk ((s.toList.reverse.dropWhile (fun c => c == '/')).reverse)

/-- Components of `pathlib.PurePosixPath(s)` (excluding the root): split on
`/`, dropping empty components and `"."` components, keeping `".."`. -/
def pyPathParts (s : String) : List String :=
  (splitChar '/' s).filter (fun c => c != "" && c != ".")

/-- Root of `pathlib.PurePosixPath(s)`: `"//"` for exactly two leading
slashes, `"/"` for one or three-and-more, `""` for a relative path. -/
def pyPathRoot (s : String) : String :=
  match s.toList with
  | '/' :: '/' :: '/' :: _ => "/"
  | '/' :: '/' :: _ => "//"
  | '/' :: _ => "/"
  | _ => ""

/-- Rebuild `str(path)` from a root and a component list, as CPython's
posix flavour does (a rootless path with no components prints as `"."`). -/
def pathJoinStr (root : String) (parts : List String) : String :=
  if root != "" then root ++ joinWith "/" parts
  else if parts.isEmpty then "." else joinWith "/" parts

/-- Python `str(pathlib.Path(s))`. -/
def pathStr (s : String) : String := pathJoinStr (pyPathRoot s) (pyPathParts s)

/-- Python `pathlib.Path(s).name`: the final component (empty for a path
with no components, such as `""`, `"."` or `"/"`). -/
def pathName (s : String) : String := ((pyPathParts s).getLast?).getD ""

/-- Python `self.output_dir / Path(s3_key).name` as a string
(`self.output_dir` is `Path(output_dir)`); joining with an empty name
leaves the base path unchanged, as in `pathlib`. -/
def downloadDest (output_dir s3_key : String) : String :=
  pathJoinStr (pyPathRoot output_dir)
    (pyPathParts output_dir ++ (if pathName s3_key == "" then [] else [pathName s3_key]))

/-- Behaviour of the external process spawned for one `subprocess.run`
call (or of the surrounding `try` block, for `raises`): `runs` gives its
wall-clock duration in seconds together with the return code and the
captured stdout/stderr; `raises` is an exception visible to the
`except Exception` handler. -/
inductive ProcBehavior where
  | runs (duration : Nat) (returncode : Int) (stdoutS : String) (stderrS : String)
  | raises (msg : String)
deriving DecidableEq

/-- What a `subprocess.run(..., timeout=t, check=False)` call yields for a
given process behaviour. -/
inductive RunOutcome where
  | completed (returncode : Int) (stdoutS : String) (stderrS : String)
  | timeoutExpired
  | raised (msg : String)
deriving DecidableEq

/-- Model of `subprocess.run(cmd, capture_output=True, text=True,
timeout=timeoutSecs, check=False)`: `subprocess.TimeoutExpired` is raised
exactly when the process outlives the `timeout` argument. -/
def subprocess_run (timeoutSecs : Nat) : ProcBehavior → RunOutcome
  | ProcBehavior.runs d rc o e =>
      if timeoutSecs < d then RunOutcome.timeoutExpired else RunOutcome.completed rc o e
  | ProcBehavior.raises m => RunOutcome.raised m

/-- The `["--profile", p]` suffix appended to every AWS CLI command when an
AWS profile is configured. -/
def profileArgs : Option String → List String
  | some p => ["--profile", p]
  | none => []

/-! ## Downloader (`src/s3_concurrent_downloader.py`) -/

/-- Constructor arguments of `S3Downloader.__init__` (`bucket_name`,
`max_workers`, `output_dir`, `aws_profile`); the mutable counters are
threaded separately as `DownloaderState`. -/
structure DownloaderCfg where
  bucket_name : String
  max_workers : Nat
  output_dir : String
  aws_profile : Option String

/-- The mutable progress counters of `S3Downloader`
(`downloaded_count`, `failed_count`, `total_files`). -/
structure DownloaderState where
  downloaded_count : Nat
  failed_count : Nat
  total_files : Nat
deriving DecidableEq

/-- The percentage computed inside the lock:
`(downloaded_count + failed_count) / total_files * 100`. -/
def dProgress (st : DownloaderState) : ℚ :=
  ((st.downloaded_count + st.failed_count : ℚ) / (st.total_files : ℚ)) * 100

/-- One worker's step: the counter state after the completion handler ran,
the returned `(success, item, error_message)` triple, and the progress
percentage printed inside the lock. -/
structure ItemStep (σ : Type) where
  state : σ
  success : Bool
  item : String
  error_msg : Option String
  printed_progress : ℚ
deriving DecidableEq

/-- `S3Downloader._build_aws_list_command` (the prefix gets
`.rstrip('/')` and a trailing `/` appended when non-empty). -/
def _build_aws_list_command (cfg : DownloaderCfg) (s3_pre : String) : List String :=
  (if s3_pre != "" then
    ["aws", "s3", "ls", "s3://" ++ cfg.bucket_name ++ "/" ++ rstripSlash s3_pre ++ "/",
      "--recursive"]
  else
    ["aws", "s3", "ls", "s3://" ++ cfg.bucket_name ++ "/", "--recursive"])
  ++ profileArgs cfg.aws_profile

/-- `S3Downloader._build_aws_download_command`. -/
def _build_aws_download_command (cfg : DownloaderCfg) (s3_key local_file : String) :
    List String :=
  ["aws", "s3", "cp", "s3://" ++ cfg.bucket_name ++ "/" ++ s3_key, local_file]
    ++ profileArgs cfg.aws_profile

/-- The command `_download_file` runs for a given key (the local file is
`self.output_dir / Path(s3_key).name`). -/
def downloadCmd (cfg : DownloaderCfg) (s3_key : String) : List String :=
  _build_aws_download_command cfg s3_key (downloadDest cfg.output_dir s3_key)

/-- The error message of the downloader's timeout handler. -/
def download_timeout_message : String := "Download timeout (1 hour exceeded)"

/-- Parse one line of `aws s3 ls --recursive` output as in
`S3Downloader._list_s3_files`: blank lines and lines with fewer than four
whitespace-separated fields are dropped; the key is the fields from the
fourth on, re-joined with single spaces; `fnmatch.fnmatch` on
`Path(file_key).name` is abstracted as an opaque predicate. -/
def parseListLine (pat : Option (String → Bool)) (line : String) : Option String :=
  if pyStrip line != "" then
    let parts := pySplit line
    if 4 ≤ parts.length then
      let file_key := joinWith " " (parts.drop 3)
      match pat with
      | some matchesName => if matchesName (pathName file_key) then some file_key else none
      | none => some file_key
    else none
  else none

/-- `S3Downloader._list_s3_files`: run the list command with
`timeout=1800`; on a non-zero return code, a timeout or any exception
return `[]`; otherwise parse `stdout.strip().split("\n")` line by line. -/
def _list_s3_files (cfg : DownloaderCfg) (run : List String → ProcBehavior)
    (s3_pre : String) (pat : Option (String → Bool)) : List String :=
  match subprocess_run 1800 (run (_build_aws_list_command cfg s3_pre)) with
  | RunOutcome.completed rc stdoutS _ =>
      if rc != 0 then []
      else (splitChar '\n' (pyStrip stdoutS)).filterMap (parseListLine pat)
  | RunOutcome.timeoutExpired => []
  | RunOutcome.raised _ => []

/-- `S3Downloader._download_file`: run `aws s3 cp` with `timeout=3600`;
on return code 0 increment `downloaded_count`, otherwise (non-zero code,
`TimeoutExpired`, or any exception) increment `failed_count`; in every
branch the progress percentage is computed from the post-increment
counters, and `(success, s3_key, error_message)` is returned. -/
def _download_file (cfg : DownloaderCfg) (run : List String → ProcBehavior)
    (st : DownloaderState) (s3_key : String) : ItemStep DownloaderState :=
  match subprocess_run 3600 (run (downloadCmd cfg s3_key)) with
  | RunOutcome.completed rc stdoutS stderrS =>
      if rc = 0 then
        let st' := { st with downloaded_count := st.downloaded_count + 1 }
        ⟨st', true, s3_key, none, dProgress st'⟩
      else
        let error_msg := pyOrStr (pyStrip stderrS) (pyStrip stdoutS)
        let st' := { st with failed_count := st.failed_count + 1 }
        ⟨st', false, s3_key, some error_msg, dProgress st'⟩
  | RunOutcome.timeoutExpired =>
      let st' := { st with failed_count := st.failed_count + 1 }
      ⟨st', false, s3_key, some download_timeout_message, dProgress st'⟩
  | RunOutcome.raised e =>
      let st' := { st with failed_count := st.failed_count + 1 }
      ⟨st', false, s3_key, some e, dProgress st'⟩

/-- Fan-out/fan-in of `download_files`: one `_download_file` task per
submitted key, threading the shared counters; returns the final counter
state and the per-item steps in completion order. -/
def drunItems (cfg : DownloaderCfg) (run : List String → ProcBehavior) :
    DownloaderState → List String → DownloaderState × List (ItemStep DownloaderState)
  | st, [] => (st, [])
  | st, k :: rest =>
      let s := _download_file cfg run st k
      let r := drunItems cfg run s.state rest
      (r.1, s :: r.2)

/-- The `errors` list built by the `as_completed` loop: one
`(item, error_message)` entry per failed outcome, in completion order. -/
def collectErrors {σ : Type} (steps : List (ItemStep σ)) : List (String × Option String) :=
  steps.foldr (fun s acc => if s.success then acc else (s.item, s.error_msg) :: acc) []

/-- The summary dict returned by `download_files` / `upload_files`.
`total_time` is `none` when the returned dict has no `"total_time"` key
(the empty-work-list early return) and `some t` when it carries the
elapsed wall-clock time `t`. -/
structure RunResult where
  success : Nat
  failed : Nat
  errors : List (String × Option String)
  total_time : Option ℚ
deriving DecidableEq

/-- The dispatch part of `S3Downloader.download_files` (everything after
the listing): an empty work list returns
`{"success": 0, "failed": 0, "errors": []}` immediately (no
`"total_time"` key, workers never started, counters never reset);
otherwise the counters are initialised with `total_files = len(s3_files)`
and every file is dispatched. `elapsed_time` is the wall-clock duration
measured around the pool. -/
def downloadDispatch (cfg : DownloaderCfg) (run : List String → ProcBehavior)
    (elapsed_time : ℚ) (s3_files : List String) : RunResult :=
  if s3_files.isEmpty then
    ⟨0, 0, [], none⟩
  else
    let r := drunItems cfg run ⟨0, 0, s3_files.length⟩ s3_files
    ⟨r.1.downloaded_count, r.1.failed_count, collectErrors r.2, some elapsed_time⟩

/-- `S3Downloader.download_files`: list the bucket, then dispatch. -/
def download_files (cfg : DownloaderCfg) (run : List String → ProcBehavior)
    (elapsed_time : ℚ) (s3_pre : String) (pat : Option (String → Bool)) : RunResult :=
  downloadDispatch cfg run elapsed_time (_list_s3_files cfg run s3_pre pat)

/-- Exit code of the downloader's `main` on the normal path:
`sys.exit(1)` iff `results["failed"] > 0`, else `sys.exit(0)`. -/
def downloader_main_exit (r : RunResult) : Nat := if 0 < r.failed then 1 else 0

/-! ## Uploader (`src/s3_concurrent_uploader.py`) -/

/-- Constructor state of `S3Uploader.__init__` (`bucket_name`,
`max_workers`, `s3_prefix`, `aws_profile`); the field `s3_pre` holds the
stored `self.s3_prefix`, which `__init__` sets to
`s3_prefix.rstrip("/")`. -/
structure UploaderCfg where
  bucket_name : String
  max_workers : Nat
  s3_pre : String
  aws_profile : Option String

/-- `S3Uploader.__init__`: the `s3_prefix` argument is stored with its
trailing slashes stripped. -/
def S3Uploader_init (bucket_name : String) (max_workers : Nat) (s3_pre : String)
    (aws_profile : Option String) : UploaderCfg :=
  ⟨bucket_name, max_workers, rstripSlash s3_pre, aws_profile⟩

/-- The mutable progress counters of `S3Uploader`
(`uploaded_count`, `failed_count`, `total_files`). -/
structure UploaderState where
  uploaded_count : Nat
  failed_count : Nat
  total_files : Nat
deriving DecidableEq

/-- The percentage computed inside the lock:
`(uploaded_count + failed_count) / total_files * 100`. -/
def uProgress (st : UploaderState) : ℚ :=
  ((st.uploaded_count + st.failed_count : ℚ) / (st.total_files : ℚ)) * 100

/-- The error message of the uploader's timeout handler (the enforced
`timeout` argument is nevertheless 3600 seconds). -/
def upload_timeout_message : String := "Upload timeout (5 minutes exceeded)"

/-- The S3 key built inside `S3Uploader._upload_file`:
`f"{self.s3_prefix}/{file_path.name}"` when the stored prefix is
non-empty (truthy), else just `file_path.name`. -/
def s3KeyFor (s3_pre local_file : String) : String :=
  if s3_pre != "" then s3_pre ++ "/" ++ pathName local_file else pathName local_file

/-- `S3Uploader._build_aws_command`. -/
def _build_aws_command (cfg : UploaderCfg) (local_file s3_key : String) : List String :=
  ["aws", "s3", "cp", local_file, "s3://" ++ cfg.bucket_name ++ "/" ++ s3_key]
    ++ profileArgs cfg.aws_profile

/-- The command `_upload_file` runs for a given local file
(`str(file_path)` and the derived S3 key). -/
def uploadCmd (cfg : UploaderCfg) (local_file : String) : List String :=
  _build_aws_command cfg (pathStr local_file) (s3KeyFor cfg.s3_pre local_file)

/-- `S3Uploader._upload_file`: run `aws s3 cp` with `timeout=3600`; on
return code 0 increment `uploaded_count`, otherwise increment
`failed_count`; the progress percentage is computed from the
post-increment counters in every branch. The normal branches return
`str(file_path)` as the item, the `TimeoutExpired` and generic exception
handlers return the raw `local_file` argument. -/
def _upload_file (cfg : UploaderCfg) (run : List String → ProcBehavior)
    (st : UploaderState) (local_file : String) : ItemStep UploaderState :=
  match subprocess_run 3600 (run (uploadCmd cfg local_file)) with
  | RunOutcome.completed rc stdoutS stderrS =>
      if rc = 0 then
        let st' := { st with uploaded_count := st.uploaded_count + 1 }
        ⟨st', true, pathStr local_file, none, uProgress st'⟩
      else
        let error_msg := pyOrStr (pyStrip stderrS) (pyStrip stdoutS)
        let st' := { st with failed_count := st.failed_count + 1 }
        ⟨st', false, pathStr local_file, some error_msg, uProgress st'⟩
  | RunOutcome.timeoutExpired =>
      let st' := { st with failed_count := st.failed_count + 1 }
      ⟨st', false, local_file, some upload_timeout_message, uProgress st'⟩
  | RunOutcome.raised e =>
      let st' := { st with failed_count := st.failed_count + 1 }
      ⟨st', false, local_file, some e, uProgress st'⟩

/-- Fan-out/fan-in of `upload_files`: one `_upload_file` task per valid
file, threading the shared counters. -/
def urunItems (cfg : UploaderCfg) (run : List String → ProcBehavior) :
    UploaderState → List String → UploaderState × List (ItemStep UploaderState)
  | st, [] => (st, [])
  | st, f :: rest =>
      let s := _upload_file cfg run st f
      let r := urunItems cfg run s.state rest
      (r.1, s :: r.2)

/-- `S3Uploader.upload_files`: filter the input list with
`os.path.isfile` (modelled by the predicate `isFile`); an empty surviving
list returns `{"success": 0, "failed": 0, "errors": []}` immediately (no
`"total_time"` key, no worker started); otherwise the counters are
initialised with `total_files = len(valid_files)` and every valid file is
dispatched. -/
def upload_files (cfg : UploaderCfg) (isFile : String → Bool)
    (run : List String → ProcBehavior) (elapsed_time : ℚ) (file_list : List String) :
    RunResult :=
  let valid_files := file_list.filter isFile
  if valid_files.isEmpty then
    ⟨0, 0, [], none⟩
  else
    let r := urunItems cfg run ⟨0, 0, valid_files.length⟩ valid_files
    ⟨r.1.uploaded_count, r.1.failed_count, collectErrors r.2, some elapsed_time⟩

/-- Worker for `dedupFirst` carrying the set of already-seen entries. -/
def dedupFirstAux (seen : List String) : List String → List String
  | [] => []
  | x :: xs => if x ∈ seen then dedupFirstAux seen xs else x :: dedupFirstAux (x :: seen) xs

/-- `list(dict.fromkeys(files_to_upload))`: deduplicate preserving the
first occurrence of each entry. -/
def dedupFirst (l : List String) : List String := dedupFirstAux [] l

/-- Exit code of the uploader's `main` from the point where
`files_to_upload` has been assembled: deduplicate, `sys.exit(1)` when the
list is empty, otherwise upload and `sys.exit(1)` iff
`results["failed"] > 0`, else `sys.exit(0)`. -/
def uploader_main_exit (cfg : UploaderCfg) (isFile : String → Bool)
    (run : List String → ProcBehavior) (elapsed_time : ℚ) (files_args : List String) :
    Nat :=
  let files_to_upload := dedupFirst files_args
  if files_to_upload.isEmpty then 1
  else if 0 < (upload_files cfg isFile run elapsed_time files_to_upload).failed then 1
  else 0

/-- How the `try` body of `main` ends in either script: the dispatch
returns its summary (`completes`), `KeyboardInterrupt` escapes it
(`interrupted`), or some other unhandled exception escapes it
(`fails`). -/
inductive MainFlow where
  | completes
  | interrupted
  | fails (msg : String)

/-- Exit code of the downloader's `main` including its exception
handlers: on normal completion `sys.exit(1)` iff `results["failed"] > 0`
else `sys.exit(0)`; the `except KeyboardInterrupt` and
`except Exception` handlers both `sys.exit(1)`. -/
def downloader_main_exit_flow (flow : MainFlow) (r : RunResult) : Nat :=
  match flow with
  | MainFlow.completes => downloader_main_exit r
  | MainFlow.interrupted => 1
  | MainFlow.fails _ => 1

/-- Exit code of the uploader's `main` including its exception handlers;
the empty-list check and its `sys.exit(1)` precede the `try` block, and
inside it `except KeyboardInterrupt` and `except Exception` both
`sys.exit(1)`. -/
def uploader_main_exit_flow (cfg : UploaderCfg) (isFile : String → Bool)
    (run : List String → ProcBehavior) (elapsed_time : ℚ)
    (files_args : List String) (flow : MainFlow) : Nat :=
  let files_to_upload := dedupFirst files_args
  if files_to_upload.isEmpty then 1
  else
    match flow with
    | MainFlow.completes =>
        if 0 < (upload_files cfg isFile run elapsed_time files_to_upload).failed then 1
        else 0
    | MainFlow.interrupted => 1
    | MainFlow.fails _ => 1

/-! ## Witness fixtures -/

/-- A concrete downloader configuration for witnesses. -/
def dcfgW : DownloaderCfg := ⟨"my-bucket", 5, "./downloads", none⟩

/-- A concrete uploader configuration for witnesses. -/
def ucfgW : UploaderCfg := S3Uploader_init "my-bucket" 5 "uploads/" none

/-- A process behaviour that succeeds instantly for every command. -/
def runOkW : List String → ProcBehavior := fun _ => ProcBehavior.runs 1 0 "" ""

/-- A process behaviour that fails (return code 1, stderr "denied") for
every command. -/
def runFailW : List String → ProcBehavior := fun _ => ProcBehavior.runs 1 1 "" "denied"

/-! ## Downloader lemmas -/

/-- Whether the transfer command for key `k` completes within the timeout
with return code 0: the condition under which `_download_file` takes its
success branch. -/
def dOk (cfg : DownloaderCfg) (run : List String → ProcBehavior) (k : String) : Bool :=
  match subprocess_run 3600 (run (downloadCmd cfg k)) with
  | RunOutcome.completed rc _ _ => rc == 0
  | _ => false

/-- One completion changes exactly one of the two counters by one. -/
@[reducible] def dOneChange (a b : DownloaderState) : Prop :=
  (b.downloaded_count = a.downloaded_count + 1 ∧ b.failed_count = a.failed_count) ∨
  (b.downloaded_count = a.downloaded_count ∧ b.failed_count = a.failed_count + 1)

theorem dStep (cfg : DownloaderCfg) (run : List String → ProcBehavior)
    (st : DownloaderState) (k : String) :
    ((_download_file cfg run st k).item = k) ∧
    ((_download_file cfg run st k).success = dOk cfg run k) ∧
    ((_download_file cfg run st k).state.total_files = st.total_files) ∧
    ((_download_file cfg run st k).state.downloaded_count
      = st.downloaded_count + (if dOk cfg run k then 1 else 0)) ∧
    ((_download_file cfg run st k).state.failed_count
      = st.failed_count + (if dOk cfg run k then 0 else 1)) ∧
    ((_download_file cfg run st k).printed_progress
      = dProgress (_download_file cfg run st k).state) ∧
    ((_download_file cfg run st k).success = false →
      ((_download_file cfg run st k).error_msg).isSome) := by
  unfold _download_file dOk
  cases h : subprocess_run 3600 (run (downloadCmd cfg k)) with
  | completed rc o e => by_cases hrc : rc = 0 <;> simp [hrc]
  | timeoutExpired => simp
  | raised m => simp

theorem dStep_oneChange (cfg : DownloaderCfg) (run : List String → ProcBehavior)
    (st : DownloaderState) (k : String) :
    dOneChange st (_download_file cfg run st k).state := by
  obtain ⟨-, -, -, hd, hf, -, -⟩ := dStep cfg run st k
  by_cases hok : dOk cfg run k
  · exact Or.inl ⟨by simp [hd, hok], by simp [hf, hok]⟩
  · exact Or.inr ⟨by simp [hd, hok], by simp [hf, hok]⟩

theorem drun_len (cfg : DownloaderCfg) (run : List String → ProcBehavior) :
    ∀ (files : List String) (st : DownloaderState),
      ((drunItems cfg run st files).2).length = files.length := by
  intro files
  induction files with
  | nil => intro st; rfl
  | cons k rest ih => intro st; simp [drunItems, ih]

theorem drun_total (cfg : DownloaderCfg) (run : List String → ProcBehavior) :
    ∀ (files : List String) (st : DownloaderState),
      ((drunItems cfg run st files).1).total_files = st.total_files := by
  intro files
  induction files with
  | nil => intro st; rfl
  | cons k rest ih =>
      intro st
      have h := (dStep cfg run st k).2.2.1
      simp [drunItems, ih, h]

theorem drun_counts (cfg : DownloaderCfg) (run : List String → ProcBehavior) :
    ∀ (files : List String) (st : DownloaderState),
      ((drunItems cfg run st files).1).downloaded_count
          = st.downloaded_count + (files.filter (dOk cfg run)).length ∧
      ((drunItems cfg run st files).1).failed_count
          = st.failed_count + (files.filter (fun k => !(dOk cfg run k))).length := by
  intro files
  induction files with
  | nil => intro st; exact ⟨rfl, rfl⟩
  | cons k rest ih =>
      intro st
      obtain ⟨-, -, -, hd, hf, -, -⟩ := dStep cfg run st k
      obtain ⟨ihd, ihf⟩ := ih (_download_file cfg run st k).state
      constructor
      · simp only [drunItems, ihd, hd, List.filter]
        by_cases hok : dOk cfg run k <;> simp [hok] <;> omega
      · simp only [drunItems, ihf, hf, List.filter]
        by_cases hok : dOk cfg run k <;> simp [hok] <;> omega

theorem drun_items_map (cfg : DownloaderCfg) (run : List String → ProcBehavior) :
    ∀ (files : List String) (st : DownloaderState),
      ((drunItems cfg run st files).2).map (fun s => s.item) = files := by
  intro files
  induction files with
  | nil => intro st; rfl
  | cons k rest ih =>
      intro st
      have h := (dStep cfg run st k).1
      simp [drunItems, ih, h]

theorem drun_sum_trace (cfg : DownloaderCfg) (run : List String → ProcBehavior) :
    ∀ (files : List String) (st : DownloaderState),
      ((drunItems cfg run st files).2).map
          (fun s => s.state.downloaded_count + s.state.failed_count)
        = (List.range files.length).map
            (fun i => st.downloaded_count + st.failed_count + (i + 1)) := by
  intro files
  induction files with
  | nil => intro st; rfl
  | cons k rest ih =>
      intro st
      obtain ⟨-, -, -, hd, hf, -, -⟩ := dStep cfg run st k
      have hsum : (_download_file cfg run st k).state.downloaded_count
          + (_download_file cfg run st k).state.failed_count
          = st.downloaded_count + st.failed_count + 1 := by
        rw [hd, hf]; by_cases hok : dOk cfg run k <;> simp [hok] <;> omega
      have ihs := ih (_download_file cfg run st k).state
      rw [hsum] at ihs
      have htail :
          List.map ((fun i => st.downloaded_count + st.failed_count + (i + 1)) ∘ Nat.succ)
              (List.range rest.length)
            = List.map (fun i => st.downloaded_count + st.failed_count + 1 + (i + 1))
              (List.range rest.length) := by
        apply List.map_congr_left
        intro i _
        simp only [Function.comp_apply]
        omega
      simp only [drunItems, List.map_cons, List.length_cons, List.range_succ_eq_map,
        List.map_map, htail, hsum, ihs]

theorem drun_total_trace (cfg : DownloaderCfg) (run : List String → ProcBehavior) :
    ∀ (files : List String) (st : DownloaderState),
      ∀ s ∈ (drunItems cfg run st files).2, s.state.total_files = st.total_files := by
  intro files
  induction files with
  | nil => intro st s hs; simp [drunItems] at hs
  | cons k rest ih =>
      intro st s hs
      have htot := (dStep cfg run st k).2.2.1
      simp only [drunItems, List.mem_cons] at hs
      rcases hs with h | h
      · rw [h]; exact htot
      · have hmid := ih (_download_file cfg run st k).state s h
        rw [hmid]; exact htot

theorem drun_printed_trace (cfg : DownloaderCfg) (run : List String → ProcBehavior) :
    ∀ (files : List String) (st : DownloaderState),
      ((drunItems cfg run st files).2).map (fun s => s.printed_progress)
        = (List.range files.length).map
            (fun i => (((st.downloaded_count + st.failed_count + (i + 1) : ℕ) : ℚ)
                / (st.total_files : ℚ)) * 100) := by
  intro files
  induction files with
  | nil => intro st; rfl
  | cons k rest ih =>
      intro st
      obtain ⟨-, -, htot, hd, hf, hpr, -⟩ := dStep cfg run st k
      have hsum : (_download_file cfg run st k).state.downloaded_count
          + (_download_file cfg run st k).state.failed_count
          = st.downloaded_count + st.failed_count + 1 := by
        rw [hd, hf]; by_cases hok : dOk cfg run k <;> simp [hok] <;> omega
      have hhead : (_download_file cfg run st k).printed_progress
          = (((st.downloaded_count + st.failed_count + 1 : ℕ) : ℚ)
              / (st.total_files : ℚ)) * 100 := by
        rw [hpr]
        unfold dProgress
        rw [htot, ← hsum]
        push_cast
        ring
      have ihs := ih (_download_file cfg run st k).state
      rw [hsum, htot] at ihs
      have htail :
          List.map ((fun i => (((st.downloaded_count + st.failed_count + (i + 1) : ℕ) : ℚ)
                / (st.total_files : ℚ)) * 100) ∘ Nat.succ)
              (List.range rest.length)
            = List.map (fun i => (((st.downloaded_count + st.failed_count + 1 + (i + 1) : ℕ) : ℚ)
                / (st.total_files : ℚ)) * 100)
              (List.range rest.length) := by
        apply List.map_congr_left
        intro i _
        simp only [Function.comp_apply, Nat.succ_eq_add_one]
        have harith : st.downloaded_count + st.failed_count + (i + 1 + 1)
            = st.downloaded_count + st.failed_count + 1 + (i + 1) := by omega
        rw [harith]
      simp only [drunItems, List.map_cons, List.length_cons, List.range_succ_eq_map,
        List.map_map, htail, ihs, hhead]

theorem drun_chain (cfg : DownloaderCfg) (run : List String → ProcBehavior) :
    ∀ (files : List String) (st : DownloaderState),
      List.Chain dOneChange st (((drunItems cfg run st files).2).map (fun s => s.state)) := by
  intro files
  induction files with
  | nil => intro st; exact List.Chain.nil
  | cons k rest ih =>
      intro st
      exact List.Chain.cons (dStep_oneChange cfg run st k)
        (ih (_download_file cfg run st k).state)

theorem collectErrors_length {σ : Type} :
    ∀ steps : List (ItemStep σ),
      (collectErrors steps).length = (steps.filter (fun s => !s.success)).length := by
  intro steps
  induction steps with
  | nil => rfl
  | cons s rest ih =>
      by_cases hs : s.success <;> simp [collectErrors, List.filter, hs] at ih ⊢ <;>
        simpa [collectErrors] using ih

theorem collectErrors_mem {σ : Type} :
    ∀ (steps : List (ItemStep σ)) (e : String × Option String),
      e ∈ collectErrors steps →
      ∃ s ∈ steps, s.success = false ∧ e = (s.item, s.error_msg) := by
  intro steps
  induction steps with
  | nil => intro e he; simp [collectErrors] at he
  | cons s rest ih =>
      intro e he
      by_cases hs : s.success
      · simp only [collectErrors, List.foldr_cons, hs, if_pos] at he
        obtain ⟨t, ht, hts, hte⟩ := ih e he
        exact ⟨t, List.mem_cons_of_mem s ht, hts, hte⟩
      · simp only [collectErrors, List.foldr_cons, hs, if_neg, Bool.false_eq_true,
          not_false_eq_true] at he
        rcases List.mem_cons.mp he with h | h
        · exact ⟨s, List.mem_cons_self s rest, by simp [hs], h⟩
        · obtain ⟨t, ht, hts, hte⟩ := ih e h
          exact ⟨t, List.mem_cons_of_mem s ht, hts, hte⟩

/-! ## Uploader lemmas -/

/-- Whether the transfer command for local file `f` completes within the
timeout with return code 0: the condition under which `_upload_file`
takes its success branch. -/
def uOk (cfg : UploaderCfg) (run : List String → ProcBehavior) (f : String) : Bool :=
  match subprocess_run 3600 (run (uploadCmd cfg f)) with
  | RunOutcome.completed rc _ _ => rc == 0
  | _ => false

/-- One completion changes exactly one of the two counters by one. -/
@[reducible] def uOneChange (a b : UploaderState) : Prop :=
  (b.uploaded_count = a.uploaded_count + 1 ∧ b.failed_count = a.failed_count) ∨
  (b.uploaded_count = a.uploaded_count ∧ b.failed_count = a.failed_count + 1)

theorem uStep (cfg : UploaderCfg) (run : List String → ProcBehavior)
    (st : UploaderState) (f : String) :
    ((_upload_file cfg run st f).item = pathStr f ∨ (_upload_file cfg run st f).item = f) ∧
    ((_upload_file cfg run st f).success = uOk cfg run f) ∧
    ((_upload_file cfg run st f).state.total_files = st.total_files) ∧
    ((_upload_file cfg run st f).state.uploaded_count
      = st.uploaded_count + (if uOk cfg run f then 1 else 0)) ∧
    ((_upload_file cfg run st f).state.failed_count
      = st.failed_count + (if uOk cfg run f then 0 else 1)) ∧
    ((_upload_file cfg run st f).printed_progress
      = uProgress (_upload_file cfg run st f).state) ∧
    ((_upload_file cfg run st f).success = false →
      ((_upload_file cfg run st f).error_msg).isSome) := by
  unfold _upload_file uOk
  cases h : subprocess_run 3600 (run (uploadCmd cfg f)) with
  | completed rc o e => by_cases hrc : rc = 0 <;> simp [hrc]
  | timeoutExpired => simp
  | raised m => simp

theorem uStep_oneChange (cfg : UploaderCfg) (run : List String → ProcBehavior)
    (st : UploaderState) (f : String) :
    uOneChange st (_upload_file cfg run st f).state := by
  obtain ⟨-, -, -, hd, hf, -, -⟩ := uStep cfg run st f
  by_cases hok : uOk cfg run f
  · exact Or.inl ⟨by simp [hd, hok], by simp [hf, hok]⟩
  · exact Or.inr ⟨by simp [hd, hok], by simp [hf, hok]⟩

theorem urun_len (cfg : UploaderCfg) (run : List String → ProcBehavior) :
    ∀ (files : List String) (st : UploaderState),
      ((urunItems cfg run st files).2).length = files.length := by
  intro files
  induction files with
  | nil => intro st; rfl
  | cons f rest ih => intro st; simp [urunItems, ih]

theorem urun_total (cfg : UploaderCfg) (run : List String → ProcBehavior) :
    ∀ (files : List String) (st : UploaderState),
      ((urunItems cfg run st files).1).total_files = st.total_files := by
  intro files
  induction files with
  | nil => intro st; rfl
  | cons f rest ih =>
      intro st
      have h := (uStep cfg run st f).2.2.1
      simp [urunItems, ih, h]

theorem urun_counts (cfg : UploaderCfg) (run : List String → ProcBehavior) :
    ∀ (files : List String) (st : UploaderState),
      ((urunItems cfg run st files).1).uploaded_count
          = st.uploaded_count + (files.filter (uOk cfg run)).length ∧
      ((urunItems cfg run st files).1).failed_count
          = st.failed_count + (files.filter (fun f => !(uOk cfg run f))).length := by
  intro files
  induction files with
  | nil => intro st; exact ⟨rfl, rfl⟩
  | cons f rest ih =>
      intro st
      obtain ⟨-, -, -, hd, hf, -, -⟩ := uStep cfg run st f
      obtain ⟨ihd, ihf⟩ := ih (_upload_file cfg run st f).state
      constructor
      · simp only [urunItems, ihd, hd, List.filter]
        by_cases hok : uOk cfg run f <;> simp [hok] <;> omega
      · simp only [urunItems, ihf, hf, List.filter]
        by_cases hok : uOk cfg run f <;> simp [hok] <;> omega

theorem urun_items_mem (cfg : UploaderCfg) (run : List String → ProcBehavior) :
    ∀ (files : List String) (st : UploaderState),
      ∀ s ∈ (urunItems cfg run st files).2,
        ∃ f ∈ files, s.item = pathStr f ∨ s.item = f := by
  intro files
  induction files with
  | nil => intro st s hs; simp [urunItems] at hs
  | cons f rest ih =>
      intro st s hs
      simp only [urunItems, List.mem_cons] at hs
      rcases hs with h | h
      · exact ⟨f, List.mem_cons_self f rest, h ▸ (uStep cfg run st f).1⟩
      · obtain ⟨g, hg, hgi⟩ := ih (_upload_file cfg run st f).state s h
        exact ⟨g, List.mem_cons_of_mem f hg, hgi⟩

theorem urun_sum_trace (cfg : UploaderCfg) (run : List String → ProcBehavior) :
    ∀ (files : List String) (st : UploaderState),
      ((urunItems cfg run st files).2).map
          (fun s => s.state.uploaded_count + s.state.failed_count)
        = (List.range files.length).map
            (fun i => st.uploaded_count + st.failed_count + (i + 1)) := by
  intro files
  induction files with
  | nil => intro st; rfl
  | cons f rest ih =>
      intro st
      obtain ⟨-, -, -, hd, hf, -, -⟩ := uStep cfg run st f
      have hsum : (_upload_file cfg run st f).state.uploaded_count
          + (_upload_file cfg run st f).state.failed_count
          = st.uploaded_count + st.failed_count + 1 := by
        rw [hd, hf]; by_cases hok : uOk cfg run f <;> simp [hok] <;> omega
      have ihs := ih (_upload_file cfg run st f).state
      rw [hsum] at ihs
      have htail :
          List.map ((fun i => st.uploaded_count + st.failed_count + (i + 1)) ∘ Nat.succ)
              (List.range rest.length)
            = List.map (fun i => st.uploaded_count + st.failed_count + 1 + (i + 1))
              (List.range rest.length) := by
        apply List.map_congr_left
        intro i _
        simp only [Function.comp_apply]
        omega
      simp only [urunItems, List.map_cons, List.length_cons, List.range_succ_eq_map,
        List.map_map, htail, hsum, ihs]

theorem urun_printed_trace (cfg : UploaderCfg) (run : List String → ProcBehavior) :
    ∀ (files : List String) (st : UploaderState),
      ((urunItems cfg run st files).2).map (fun s => s.printed_progress)
        = (List.range files.length).map
            (fun i => (((st.uploaded_count + st.failed_count + (i + 1) : ℕ) : ℚ)
                / (st.total_files : ℚ)) * 100) := by
  intro files
  induction files with
  | nil => intro st; rfl
  | cons f rest ih =>
      intro st
      obtain ⟨-, -, htot, hd, hf, hpr, -⟩ := uStep cfg run st f
      have hsum : (_upload_file cfg run st f).state.uploaded_count
          + (_upload_file cfg run st f).state.failed_count
          = st.uploaded_count + st.failed_count + 1 := by
        rw [hd, hf]; by_cases hok : uOk cfg run f <;> simp [hok] <;> omega
      have hhead : (_upload_file cfg run st f).printed_progress
          = (((st.uploaded_count + st.failed_count + 1 : ℕ) : ℚ)
              / (st.total_files : ℚ)) * 100 := by
        rw [hpr]
        unfold uProgress
        rw [htot, ← hsum]
        push_cast
        ring
      have ihs := ih (_upload_file cfg run st f).state
      rw [hsum, htot] at ihs
      have htail :
          List.map ((fun i => (((st.uploaded_count + st.failed_count + (i + 1) : ℕ) : ℚ)
                / (st.total_files : ℚ)) * 100) ∘ Nat.succ)
              (List.range rest.length)
            = List.map (fun i => (((st.uploaded_count + st.failed_count + 1 + (i + 1) : ℕ) : ℚ)
                / (st.total_files : ℚ)) * 100)
              (List.range rest.length) := by
        apply List.map_congr_left
        intro i _
        simp only [Function.comp_apply, Nat.succ_eq_add_one]
        have harith : st.uploaded_count + st.failed_count + (i + 1 + 1)
            = st.uploaded_count + st.failed_count + 1 + (i + 1) := by omega
        rw [harith]
      simp only [urunItems, List.map_cons, List.length_cons, List.range_succ_eq_map,
        List.map_map, htail, ihs, hhead]

theorem urun_chain (cfg : UploaderCfg) (run : List String → ProcBehavior) :
    ∀ (files : List String) (st : UploaderState),
      List.Chain uOneChange st (((urunItems cfg run st files).2).map (fun s => s.state)) := by
  intro files
  induction files with
  | nil => intro st; exact List.Chain.nil
  | cons f rest ih =>
      intro st
      exact List.Chain.cons (uStep_oneChange cfg run st f)
        (ih (_upload_file cfg run st f).state)

theorem _upload_file_congr (cfg : UploaderCfg) (run₁ run₂ : List String → ProcBehavior)
    (st : UploaderState) (f : String)
    (h : run₂ (uploadCmd cfg f) = run₁ (uploadCmd cfg f)) :
    _upload_file cfg run₂ st f = _upload_file cfg run₁ st f := by
  unfold _upload_file
  rw [h]

theorem urun_congr (cfg : UploaderCfg) (run₁ run₂ : List String → ProcBehavior) :
    ∀ (files : List String) (st : UploaderState),
      (∀ f ∈ files, run₂ (uploadCmd cfg f) = run₁ (uploadCmd cfg f)) →
      urunItems cfg run₂ st files = urunItems cfg run₁ st files := by
  intro files
  induction files with
  | nil => intro st _; rfl
  | cons f rest ih =>
      intro st hagree
      have hf := _upload_file_congr cfg run₁ run₂ st f
        (hagree f (List.mem_cons_self f rest))
      have hrest := ih (_upload_file cfg run₁ st f).state
        (fun g hg => hagree g (List.mem_cons_of_mem f hg))
      simp only [urunItems, hf, hrest]

/-! ## Dispatch-level lemmas -/

theorem filter_length_split {α : Type} (p : α → Bool) :
    ∀ l : List α, (l.filter p).length + (l.filter (fun a => !(p a))).length = l.length := by
  intro l
  induction l with
  | nil => rfl
  | cons a t ih => by_cases h : p a <;> simp [List.filter_cons, h] <;> omega

theorem drun_fail_steps (cfg : DownloaderCfg) (run : List String → ProcBehavior) :
    ∀ (files : List String) (st : DownloaderState),
      (((drunItems cfg run st files).2).filter (fun s => !s.success)).length
        = (files.filter (fun k => !(dOk cfg run k))).length := by
  intro files
  induction files with
  | nil => intro st; rfl
  | cons k rest ih =>
      intro st
      have hsucc := (dStep cfg run st k).2.1
      by_cases hok : dOk cfg run k <;>
        simp [drunItems, List.filter_cons, hsucc, hok, ih]

theorem urun_fail_steps (cfg : UploaderCfg) (run : List String → ProcBehavior) :
    ∀ (files : List String) (st : UploaderState),
      (((urunItems cfg run st files).2).filter (fun s => !s.success)).length
        = (files.filter (fun f => !(uOk cfg run f))).length := by
  intro files
  induction files with
  | nil => intro st; rfl
  | cons f rest ih =>
      intro st
      have hsucc := (uStep cfg run st f).2.1
      by_cases hok : uOk cfg run f <;>
        simp [urunItems, List.filter_cons, hsucc, hok, ih]

theorem isEmpty_false_of_ne_nil {α : Type} {l : List α} (h : l ≠ []) :
    l.isEmpty = false := by
  cases l with
  | nil => exact absurd rfl h
  | cons a t => rfl

theorem downloadDispatch_spec (cfg : DownloaderCfg) (run : List String → ProcBehavior)
    (elapsed : ℚ) (files : List String) (hne : files ≠ []) :
    (downloadDispatch cfg run elapsed files).success
        = (files.filter (dOk cfg run)).length ∧
    (downloadDispatch cfg run elapsed files).failed
        = (files.filter (fun k => !(dOk cfg run k))).length ∧
    ((downloadDispatch cfg run elapsed files).errors).length
        = (files.filter (fun k => !(dOk cfg run k))).length ∧
    (downloadDispatch cfg run elapsed files).total_time = some elapsed := by
  have hE := isEmpty_false_of_ne_nil hne
  obtain ⟨hd, hf⟩ := drun_counts cfg run files ⟨0, 0, files.length⟩
  refine ⟨?_, ?_, ?_, ?_⟩ <;>
    simp [downloadDispatch, hE, hd, hf, collectErrors_length, drun_fail_steps]

theorem upload_files_spec (cfg : UploaderCfg) (isFile : String → Bool)
    (run : List String → ProcBehavior) (elapsed : ℚ) (file_list : List String)
    (hne : file_list.filter isFile ≠ []) :
    (upload_files cfg isFile run elapsed file_list).success
        = ((file_list.filter isFile).filter (uOk cfg run)).length ∧
    (upload_files cfg isFile run elapsed file_list).failed
        = ((file_list.filter isFile).filter (fun f => !(uOk cfg run f))).length ∧
    ((upload_files cfg isFile run elapsed file_list).errors).length
        = ((file_list.filter isFile).filter (fun f => !(uOk cfg run f))).length ∧
    (upload_files cfg isFile run elapsed file_list).total_time = some elapsed := by
  have hE := isEmpty_false_of_ne_nil hne
  obtain ⟨hd, hf⟩ := urun_counts cfg run (file_list.filter isFile)
    ⟨0, 0, (file_list.filter isFile).length⟩
  refine ⟨?_, ?_, ?_, ?_⟩ <;>
    simp [upload_files, hE, hd, hf, collectErrors_length, urun_fail_steps]

/-- Fixture: a file-existence predicate accepting every path. -/
def isFileAllW : String → Bool := fun _ => true

/-- Fixture: a process behaviour whose listing output is empty (return
code 0, empty stdout), so the downloader's work list comes out empty. -/
def runEmptyListW : List String → ProcBehavior := fun _ => ProcBehavior.runs 0 0 "" ""

theorem dedupFirst_ne_nil {l : List String} (h : l ≠ []) : dedupFirst l ≠ [] := by
  cases l with
  | nil => exact absurd rfl h
  | cons x xs => simp [dedupFirst, dedupFirstAux]

theorem filter_nil_iff_all {p : String → Bool} {l : List String} :
    l.filter (fun k => !(p k)) = [] ↔ ∀ k ∈ l, p k = true := by
  rw [List.filter_eq_nil_iff]
  constructor
  · intro h k hk
    have := h k hk
    simpa using this
  · intro h k hk
    simp [h k hk]

/-! ## Claims -/

/-- C1 (confirmed): for every non-empty work list of size `N` and any
`maxWorkers ≥ 1`, a completed dispatch run produces exactly `N` per-item
outcomes, the returned summary satisfies `success + failed = N`, and
`failed` equals the length of the returned error list — for both the
download dispatcher and the upload dispatcher (whose dispatched work
list is the filtered `valid_files`). -/
theorem claim1_dispatch_counts (cfg : DownloaderCfg) (ucfg : UploaderCfg)
    (run urun : List String → ProcBehavior) (isFile : String → Bool)
    (elapsedD elapsedU : ℚ) (files file_list : List String)
    (hne : files ≠ []) (hw : 1 ≤ cfg.max_workers)
    (hne' : file_list.filter isFile ≠ []) (hw' : 1 ≤ ucfg.max_workers) :
    (((drunItems cfg run ⟨0, 0, files.length⟩ files).2).length = files.length ∧
      (downloadDispatch cfg run elapsedD files).success
          + (downloadDispatch cfg run elapsedD files).failed = files.length ∧
      ((downloadDispatch cfg run elapsedD files).errors).length
          = (downloadDispatch cfg run elapsedD files).failed) ∧
    (((urunItems ucfg urun ⟨0, 0, (file_list.filter isFile).length⟩
            (file_list.filter isFile)).2).length = (file_list.filter isFile).length ∧
      (upload_files ucfg isFile urun elapsedU file_list).success
          + (upload_files ucfg isFile urun elapsedU file_list).failed
          = (file_list.filter isFile).length ∧
      ((upload_files ucfg isFile urun elapsedU file_list).errors).length
          = (upload_files ucfg isFile urun elapsedU file_list).failed) := by
  obtain ⟨hs, hf, he, -⟩ := downloadDispatch_spec cfg run elapsedD files hne
  obtain ⟨hs', hf', he', -⟩ := upload_files_spec ucfg isFile urun elapsedU file_list hne'
  refine ⟨⟨drun_len cfg run files _, ?_, ?_⟩, ⟨urun_len ucfg urun _ _, ?_, ?_⟩⟩
  · rw [hs, hf]; exact filter_length_split _ files
  · rw [he, hf]
  · rw [hs', hf']; exact filter_length_split _ _
  · rw [he', hf']

/-- Concrete instantiation of `claim1_dispatch_counts`: the two-key list
with an always-succeeding backend and one existing upload file. -/
theorem claim1_witness :
    (((drunItems dcfgW runOkW ⟨0, 0, (["a", "b"] : List String).length⟩ ["a", "b"]).2).length
          = (["a", "b"] : List String).length ∧
      (downloadDispatch dcfgW runOkW 0 ["a", "b"]).success
          + (downloadDispatch dcfgW runOkW 0 ["a", "b"]).failed
          = (["a", "b"] : List String).length ∧
      ((downloadDispatch dcfgW runOkW 0 ["a", "b"]).errors).length
          = (downloadDispatch dcfgW runOkW 0 ["a", "b"]).failed) ∧
    (((urunItems ucfgW runOkW ⟨0, 0, ((["x.txt"] : List String).filter isFileAllW).length⟩
            ((["x.txt"] : List String).filter isFileAllW)).2).length
          = ((["x.txt"] : List String).filter isFileAllW).length ∧
      (upload_files ucfgW isFileAllW runOkW 0 ["x.txt"]).success
          + (upload_files ucfgW isFileAllW runOkW 0 ["x.txt"]).failed
          = ((["x.txt"] : List String).filter isFileAllW).length ∧
      ((upload_files ucfgW isFileAllW runOkW 0 ["x.txt"]).errors).length
          = (upload_files ucfgW isFileAllW runOkW 0 ["x.txt"]).failed) :=
  claim1_dispatch_counts dcfgW ucfgW runOkW runOkW isFileAllW 0 0 ["a", "b"] ["x.txt"]
    (by decide) (by decide) (by decide) (by decide)

/-- C2 counterexample: on an empty work list the dispatcher returns a
summary with no elapsed entry at all (`total_time = none`), not the
claimed record carrying an elapsed duration of zero. -/
theorem claim2_counterexample :
    (downloadDispatch dcfgW runOkW 0 []).total_time = none ∧
    downloadDispatch dcfgW runOkW 0 [] ≠ ⟨0, 0, [], some 0⟩ :=
  ⟨rfl, by decide⟩

/-- C2 as amended (proved): on an empty work list (for the uploader, an
empty filtered `valid_files` list) the dispatcher returns
`{success := 0, failed := 0, errors := []}` immediately, with no
elapsed/`total_time` entry in the returned summary at all, without
invoking the transfer function (the result does not depend on the
backend behaviour or on the timer). -/
theorem claim2_empty_dispatch (cfg : DownloaderCfg) (ucfg : UploaderCfg)
    (run run₂ urun : List String → ProcBehavior) (isFile : String → Bool)
    (elapsed elapsed₂ elapsedU : ℚ) (file_list : List String)
    (hvalid : file_list.filter isFile = []) :
    downloadDispatch cfg run elapsed [] = ⟨0, 0, [], none⟩ ∧
    downloadDispatch cfg run elapsed [] = downloadDispatch cfg run₂ elapsed₂ [] ∧
    upload_files ucfg isFile urun elapsedU file_list = ⟨0, 0, [], none⟩ := by
  refine ⟨rfl, rfl, ?_⟩
  simp only [upload_files, hvalid]
  rfl

/-- Concrete instantiation of `claim2_empty_dispatch`. -/
theorem claim2_witness :
    downloadDispatch dcfgW runOkW 0 [] = ⟨0, 0, [], none⟩ ∧
    downloadDispatch dcfgW runOkW 0 [] = downloadDispatch dcfgW runFailW 7 [] ∧
    upload_files ucfgW isFileAllW runOkW 0 [] = ⟨0, 0, [], none⟩ :=
  claim2_empty_dispatch dcfgW ucfgW runOkW runFailW runOkW isFileAllW 0 7 0 [] (by decide)

/-- C3 counterexample: with a backend whose listing returns no objects
the downloader's work list is empty, yet `main` exits with code 0 (it
only tests `results["failed"] > 0`), where the claim requires exit
code 1 for an empty work list. -/
theorem claim3_counterexample :
    _list_s3_files dcfgW runEmptyListW "" none = [] ∧
    downloader_main_exit (download_files dcfgW runEmptyListW 0 "" none) = 0 :=
  ⟨rfl, rfl⟩

/-- C3 as amended (proved): the exit code is 0 iff every dispatched item
succeeded, vacuously so for an empty work list — the downloader exits 0
when its listing is empty; the uploader exits 1 before dispatching when
the assembled `files_to_upload` list is empty, and otherwise exits 0 iff
every file surviving the existence filter uploaded successfully; the
`except KeyboardInterrupt` and `except Exception` handlers of both
`main`s exit 1, and on normal completion the flow-aware exit code
agrees with the failed-count rule. -/
theorem claim3_exit_codes (cfg : DownloaderCfg) (ucfg : UploaderCfg)
    (run urun : List String → ProcBehavior) (isFile : String → Bool)
    (elapsedD elapsedU : ℚ) (files files_args : List String)
    (hargs : files_args ≠ []) :
    (downloader_main_exit (downloadDispatch cfg run elapsedD files) = 0 ↔
      ∀ k ∈ files, dOk cfg run k = true) ∧
    (uploader_main_exit ucfg isFile urun elapsedU [] = 1) ∧
    (uploader_main_exit ucfg isFile urun elapsedU files_args = 0 ↔
      ∀ f ∈ (dedupFirst files_args).filter isFile, uOk ucfg urun f = true) ∧
    (∀ r : RunResult, downloader_main_exit_flow MainFlow.interrupted r = 1) ∧
    (∀ (r : RunResult) (msg : String),
      downloader_main_exit_flow (MainFlow.fails msg) r = 1) ∧
    (∀ r : RunResult,
      downloader_main_exit_flow MainFlow.completes r = downloader_main_exit r) ∧
    (uploader_main_exit_flow ucfg isFile urun elapsedU files_args
        MainFlow.interrupted = 1) ∧
    (∀ msg : String,
      uploader_main_exit_flow ucfg isFile urun elapsedU files_args
        (MainFlow.fails msg) = 1) ∧
    (uploader_main_exit_flow ucfg isFile urun elapsedU files_args MainFlow.completes
        = uploader_main_exit ucfg isFile urun elapsedU files_args) := by
  have hLflow := dedupFirst_ne_nil hargs
  have hLEflow := isEmpty_false_of_ne_nil hLflow
  refine ⟨?_, rfl, ?_, fun r => rfl, fun r msg => rfl, fun r => rfl,
    by simp [uploader_main_exit_flow, hLEflow],
    fun msg => by simp [uploader_main_exit_flow, hLEflow], rfl⟩
  · by_cases hfe : files = []
    · subst hfe
      simp [downloadDispatch, downloader_main_exit]
    · obtain ⟨-, hf, -, -⟩ := downloadDispatch_spec cfg run elapsedD files hfe
      unfold downloader_main_exit
      rw [hf]
      constructor
      · intro h0 k hk
        have hz : (files.filter (fun k => !(dOk cfg run k))).length = 0 := by
          by_contra hnz
          have hp := Nat.pos_of_ne_zero hnz
          simp [hp] at h0
        exact filter_nil_iff_all.mp (List.length_eq_zero.mp hz) k hk
      · intro hall
        have hnil := filter_nil_iff_all.mpr hall
        simp [hnil]
  · have hL := dedupFirst_ne_nil hargs
    have hLE := isEmpty_false_of_ne_nil hL
    simp only [uploader_main_exit, hLE, Bool.false_eq_true, if_false]
    by_cases hv : (dedupFirst files_args).filter isFile = []
    · have : upload_files ucfg isFile urun elapsedU (dedupFirst files_args)
          = ⟨0, 0, [], none⟩ := by
        simp only [upload_files, hv]
        rfl
      rw [this]
      simp [hv]
    · obtain ⟨-, hf, -, -⟩ :=
        upload_files_spec ucfg isFile urun elapsedU (dedupFirst files_args) hv
      rw [hf]
      constructor
      · intro h0 f hfmem
        have hz : (((dedupFirst files_args).filter isFile).filter
            (fun f => !(uOk ucfg urun f))).length = 0 := by
          by_contra hnz
          have hp := Nat.pos_of_ne_zero hnz
          rw [if_pos hp] at h0
          exact absurd h0 one_ne_zero
        exact filter_nil_iff_all.mp (List.length_eq_zero.mp hz) f hfmem
      · intro hall
        have hnil := filter_nil_iff_all.mpr hall
        simp [hnil]

/-- Concrete instantiation of `claim3_exit_codes`. -/
theorem claim3_witness :
    (downloader_main_exit (downloadDispatch dcfgW runOkW 0 ["a"]) = 0 ↔
      ∀ k ∈ (["a"] : List String), dOk dcfgW runOkW k = true) ∧
    (uploader_main_exit ucfgW isFileAllW runOkW 0 [] = 1) ∧
    (uploader_main_exit ucfgW isFileAllW runOkW 0 ["x.txt"] = 0 ↔
      ∀ f ∈ (dedupFirst ["x.txt"]).filter isFileAllW, uOk ucfgW runOkW f = true) ∧
    (∀ r : RunResult, downloader_main_exit_flow MainFlow.interrupted r = 1) ∧
    (∀ (r : RunResult) (msg : String),
      downloader_main_exit_flow (MainFlow.fails msg) r = 1) ∧
    (∀ r : RunResult,
      downloader_main_exit_flow MainFlow.completes r = downloader_main_exit r) ∧
    (uploader_main_exit_flow ucfgW isFileAllW runOkW 0 ["x.txt"]
        MainFlow.interrupted = 1) ∧
    (∀ msg : String,
      uploader_main_exit_flow ucfgW isFileAllW runOkW 0 ["x.txt"]
        (MainFlow.fails msg) = 1) ∧
    (uploader_main_exit_flow ucfgW isFileAllW runOkW 0 ["x.txt"] MainFlow.completes
        = uploader_main_exit ucfgW isFileAllW runOkW 0 ["x.txt"]) :=
  claim3_exit_codes dcfgW ucfgW runOkW runOkW isFileAllW 0 0 ["a"] ["x.txt"] (by decide)

/-- Fixture: a process behaviour that raises an exception for every
command. -/
def runRaiseW : List String → ProcBehavior := fun _ => ProcBehavior.raises "boom"

/-- Fixture: a process behaviour that runs past the one-hour timeout for
every command. -/
def runSlowW : List String → ProcBehavior := fun _ => ProcBehavior.runs 4000 0 "" ""

/-- C4 (confirmed): any exception raised inside an item's transfer call
(including a raised timeout) is caught at the worker boundary and turned
into a failure outcome carrying that item and a reason string; the
per-item function is total, so for any backend behaviour the run still
completes with exactly one outcome per item. -/
theorem claim4_worker_isolation (cfg : DownloaderCfg) (ucfg : UploaderCfg)
    (run urun : List String → ProcBehavior)
    (st : DownloaderState) (ust : UploaderState) (k f e e' : String)
    (hraise : run (downloadCmd cfg k) = ProcBehavior.raises e)
    (hraise' : urun (uploadCmd ucfg f) = ProcBehavior.raises e') :
    (_download_file cfg run st k
        = ⟨{ st with failed_count := st.failed_count + 1 }, false, k, some e,
            dProgress { st with failed_count := st.failed_count + 1 }⟩) ∧
    (_upload_file ucfg urun ust f
        = ⟨{ ust with failed_count := ust.failed_count + 1 }, false, f, some e',
            uProgress { ust with failed_count := ust.failed_count + 1 }⟩) ∧
    (∀ (st₂ : DownloaderState) (k₂ : String),
        subprocess_run 3600 (run (downloadCmd cfg k₂)) = RunOutcome.timeoutExpired →
        _download_file cfg run st₂ k₂
          = ⟨{ st₂ with failed_count := st₂.failed_count + 1 }, false, k₂,
              some download_timeout_message,
              dProgress { st₂ with failed_count := st₂.failed_count + 1 }⟩) ∧
    (∀ (run₂ : List String → ProcBehavior) (st₂ : DownloaderState) (files : List String),
        ((drunItems cfg run₂ st₂ files).2).length = files.length) ∧
    (∀ (urun₂ : List String → ProcBehavior) (ust₂ : UploaderState) (files : List String),
        ((urunItems ucfg urun₂ ust₂ files).2).length = files.length) := by
  refine ⟨?_, ?_, ?_, ?_, ?_⟩
  · simp only [_download_file, hraise, subprocess_run]
  · simp only [_upload_file, hraise', subprocess_run]
  · intro st₂ k₂ h
    simp only [_download_file, h]
  · intro run₂ st₂ files
    exact drun_len cfg run₂ files st₂
  · intro urun₂ ust₂ files
    exact urun_len ucfg urun₂ files ust₂

/-- Concrete instantiation of `claim4_worker_isolation`. -/
theorem claim4_witness :
    (_download_file dcfgW runRaiseW ⟨0, 0, 1⟩ "k"
        = ⟨{ (⟨0, 0, 1⟩ : DownloaderState) with failed_count := 0 + 1 }, false, "k",
            some "boom",
            dProgress { (⟨0, 0, 1⟩ : DownloaderState) with failed_count := 0 + 1 }⟩) ∧
    (_upload_file ucfgW runRaiseW ⟨0, 0, 1⟩ "f.txt"
        = ⟨{ (⟨0, 0, 1⟩ : UploaderState) with failed_count := 0 + 1 }, false, "f.txt",
            some "boom",
            uProgress { (⟨0, 0, 1⟩ : UploaderState) with failed_count := 0 + 1 }⟩) ∧
    (∀ (st₂ : DownloaderState) (k₂ : String),
        subprocess_run 3600 (runRaiseW (downloadCmd dcfgW k₂)) = RunOutcome.timeoutExpired →
        _download_file dcfgW runRaiseW st₂ k₂
          = ⟨{ st₂ with failed_count := st₂.failed_count + 1 }, false, k₂,
              some download_timeout_message,
              dProgress { st₂ with failed_count := st₂.failed_count + 1 }⟩) ∧
    (∀ (run₂ : List String → ProcBehavior) (st₂ : DownloaderState) (files : List String),
        ((drunItems dcfgW run₂ st₂ files).2).length = files.length) ∧
    (∀ (urun₂ : List String → ProcBehavior) (ust₂ : UploaderState) (files : List String),
        ((urunItems ucfgW urun₂ ust₂ files).2).length = files.length) :=
  claim4_worker_isolation dcfgW ucfgW runRaiseW runRaiseW ⟨0, 0, 1⟩ ⟨0, 0, 1⟩
    "k" "f.txt" "boom" "boom" (by decide) (by decide)

/-- C5 (confirmed): each transfer invocation runs under
`subprocess.run(..., timeout=3600)`, a hard one-hour ceiling: a
behaviour within 3600 seconds completes normally, one exceeding 3600
seconds becomes a failure outcome whose reason is the timeout message —
a string containing "timeout" — counted in `failed_count`, while every
other item still yields its own outcome. -/
theorem claim5_timeout (cfg : DownloaderCfg) (ucfg : UploaderCfg)
    (run urun : List String → ProcBehavior)
    (st : DownloaderState) (ust : UploaderState) (k f : String)
    (d d' : Nat) (rc rc' : Int) (o e o' e' : String)
    (hrun : run (downloadCmd cfg k) = ProcBehavior.runs d rc o e)
    (hd : 3600 < d)
    (hrun' : urun (uploadCmd ucfg f) = ProcBehavior.runs d' rc' o' e')
    (hd' : 3600 < d') :
    (3600 = 60 * 60) ∧
    (_download_file cfg run st k
        = ⟨{ st with failed_count := st.failed_count + 1 }, false, k,
            some download_timeout_message,
            dProgress { st with failed_count := st.failed_count + 1 }⟩) ∧
    (∃ pre post, download_timeout_message = pre ++ "timeout" ++ post) ∧
    (_upload_file ucfg urun ust f
        = ⟨{ ust with failed_count := ust.failed_count + 1 }, false, f,
            some upload_timeout_message,
            uProgress { ust with failed_count := ust.failed_count + 1 }⟩) ∧
    (∃ pre post, upload_timeout_message = pre ++ "timeout" ++ post) ∧
    (∀ (d₀ : Nat) (rc₀ : Int) (o₀ e₀ : String) (k₀ : String),
        run (downloadCmd cfg k₀) = ProcBehavior.runs d₀ rc₀ o₀ e₀ → d₀ ≤ 3600 →
        subprocess_run 3600 (run (downloadCmd cfg k₀))
          = RunOutcome.completed rc₀ o₀ e₀) ∧
    (∀ (run₂ : List String → ProcBehavior) (st₂ : DownloaderState) (files : List String),
        ((drunItems cfg run₂ st₂ files).2).length = files.length) := by
  refine ⟨rfl, ?_, ⟨"Download ", " (1 hour exceeded)", by decide⟩, ?_,
    ⟨"Upload ", " (5 minutes exceeded)", by decide⟩, ?_, ?_⟩
  · simp only [_download_file, hrun, subprocess_run, if_pos hd]
  · simp only [_upload_file, hrun', subprocess_run, if_pos hd']
  · intro d₀ rc₀ o₀ e₀ k₀ h hle
    simp only [h, subprocess_run, if_neg (Nat.not_lt.mpr hle)]
  · intro run₂ st₂ files
    exact drun_len cfg run₂ files st₂

/-- Concrete instantiation of `claim5_timeout`. -/
theorem claim5_witness :
    (3600 = 60 * 60) ∧
    (_download_file dcfgW runSlowW ⟨0, 0, 1⟩ "k"
        = ⟨{ (⟨0, 0, 1⟩ : DownloaderState) with failed_count := 0 + 1 }, false, "k",
            some download_timeout_message,
            dProgress { (⟨0, 0, 1⟩ : DownloaderState) with failed_count := 0 + 1 }⟩) ∧
    (∃ pre post, download_timeout_message = pre ++ "timeout" ++ post) ∧
    (_upload_file ucfgW runSlowW ⟨0, 0, 1⟩ "f.txt"
        = ⟨{ (⟨0, 0, 1⟩ : UploaderState) with failed_count := 0 + 1 }, false, "f.txt",
            some upload_timeout_message,
            uProgress { (⟨0, 0, 1⟩ : UploaderState) with failed_count := 0 + 1 }⟩) ∧
    (∃ pre post, upload_timeout_message = pre ++ "timeout" ++ post) ∧
    (∀ (d₀ : Nat) (rc₀ : Int) (o₀ e₀ : String) (k₀ : String),
        runSlowW (downloadCmd dcfgW k₀) = ProcBehavior.runs d₀ rc₀ o₀ e₀ → d₀ ≤ 3600 →
        subprocess_run 3600 (runSlowW (downloadCmd dcfgW k₀))
          = RunOutcome.completed rc₀ o₀ e₀) ∧
    (∀ (run₂ : List String → ProcBehavior) (st₂ : DownloaderState) (files : List String),
        ((drunItems dcfgW run₂ st₂ files).2).length = files.length) :=
  claim5_timeout dcfgW ucfgW runSlowW runSlowW ⟨0, 0, 1⟩ ⟨0, 0, 1⟩ "k" "f.txt"
    4000 4000 0 0 "" "" "" "" (by decide) (by decide) (by decide) (by decide)

theorem map_range_head {β : Type} (g : ℕ → β) (n : ℕ) (hn : 0 < n) :
    ((List.range n).map g).head? = some (g 0) := by
  cases n with
  | zero => omega
  | succ m => simp [List.range_succ_eq_map]

theorem map_range_getLast {β : Type} (g : ℕ → β) (n : ℕ) (hn : 0 < n) :
    ((List.range n).map g).getLast? = some (g (n - 1)) := by
  rw [List.getLast?_eq_getElem?]
  have hlen : ((List.range n).map g).length = n := by simp
  have hlt : n - 1 < ((List.range n).map g).length := by omega
  rw [hlen, List.getElem?_eq_getElem hlt]
  congr 1
  rw [List.getElem_map, List.getElem_range]

/-- C6 (confirmed): recording a success or a failure increments exactly
the corresponding counter, and the reported percentage is
`(succeeded + failed) / total * 100` computed from the post-increment
state; over a fresh run on `N` items the reported sequence is
`(i+1)/N*100`, so the first completion reports `(1/N)*100` — never 0 —
and the last reports 100. (The one-decimal rounding of the claim is
display formatting of this value by the f-string and is not modelled.) -/
theorem claim6_progress (cfg : DownloaderCfg) (ucfg : UploaderCfg)
    (run urun : List String → ProcBehavior)
    (st : DownloaderState) (ust : UploaderState) (k f : String)
    (files ufiles : List String) (hne : files ≠ []) (hne' : ufiles ≠ []) :
    ((_download_file cfg run st k).success = true →
        (_download_file cfg run st k).state.downloaded_count = st.downloaded_count + 1 ∧
        (_download_file cfg run st k).state.failed_count = st.failed_count) ∧
    ((_download_file cfg run st k).success = false →
        (_download_file cfg run st k).state.downloaded_count = st.downloaded_count ∧
        (_download_file cfg run st k).state.failed_count = st.failed_count + 1) ∧
    ((_download_file cfg run st k).printed_progress
        = (((_download_file cfg run st k).state.downloaded_count
              + (_download_file cfg run st k).state.failed_count : ℚ)
            / (st.total_files : ℚ)) * 100) ∧
    (((drunItems cfg run ⟨0, 0, files.length⟩ files).2).map (fun s => s.printed_progress)
        = (List.range files.length).map
            (fun i => (((i + 1 : ℕ) : ℚ) / (files.length : ℚ)) * 100)) ∧
    ((((drunItems cfg run ⟨0, 0, files.length⟩ files).2).map
          (fun s => s.printed_progress)).head?
        = some (((1 : ℚ) / (files.length : ℚ)) * 100)) ∧
    (((1 : ℚ) / (files.length : ℚ)) * 100 ≠ 0) ∧
    ((((drunItems cfg run ⟨0, 0, files.length⟩ files).2).map
          (fun s => s.printed_progress)).getLast? = some 100) ∧
    ((_upload_file ucfg urun ust f).success = true →
        (_upload_file ucfg urun ust f).state.uploaded_count = ust.uploaded_count + 1 ∧
        (_upload_file ucfg urun ust f).state.failed_count = ust.failed_count) ∧
    ((_upload_file ucfg urun ust f).success = false →
        (_upload_file ucfg urun ust f).state.uploaded_count = ust.uploaded_count ∧
        (_upload_file ucfg urun ust f).state.failed_count = ust.failed_count + 1) ∧
    ((_upload_file ucfg urun ust f).printed_progress
        = (((_upload_file ucfg urun ust f).state.uploaded_count
              + (_upload_file ucfg urun ust f).state.failed_count : ℚ)
            / (ust.total_files : ℚ)) * 100) ∧
    (((urunItems ucfg urun ⟨0, 0, ufiles.length⟩ ufiles).2).map (fun s => s.printed_progress)
        = (List.range ufiles.length).map
            (fun i => (((i + 1 : ℕ) : ℚ) / (ufiles.length : ℚ)) * 100)) ∧
    ((((urunItems ucfg urun ⟨0, 0, ufiles.length⟩ ufiles).2).map
          (fun s => s.printed_progress)).head?
        = some (((1 : ℚ) / (ufiles.length : ℚ)) * 100)) ∧
    ((((urunItems ucfg urun ⟨0, 0, ufiles.length⟩ ufiles).2).map
          (fun s => s.printed_progress)).getLast? = some 100) := by
  obtain ⟨-, hsucc, htot, hdc, hfc, hpr, -⟩ := dStep cfg run st k
  obtain ⟨-, husucc, hutot, hudc, hufc, hupr, -⟩ := uStep ucfg urun ust f
  have hn : 0 < files.length := List.length_pos.mpr hne
  have hn' : 0 < ufiles.length := List.length_pos.mpr hne'
  have hcast : ((files.length : ℕ) : ℚ) ≠ 0 := by
    exact_mod_cast Nat.pos_iff_ne_zero.mp hn
  have hcast' : ((ufiles.length : ℕ) : ℚ) ≠ 0 := by
    exact_mod_cast Nat.pos_iff_ne_zero.mp hn'
  have hmap : ((drunItems cfg run ⟨0, 0, files.length⟩ files).2).map
        (fun s => s.printed_progress)
      = (List.range files.length).map
          (fun i => (((i + 1 : ℕ) : ℚ) / (files.length : ℚ)) * 100) := by
    have h0 := drun_printed_trace cfg run files ⟨0, 0, files.length⟩
    simpa using h0
  have humap : ((urunItems ucfg urun ⟨0, 0, ufiles.length⟩ ufiles).2).map
        (fun s => s.printed_progress)
      = (List.range ufiles.length).map
          (fun i => (((i + 1 : ℕ) : ℚ) / (ufiles.length : ℚ)) * 100) := by
    have h0 := urun_printed_trace ucfg urun ufiles ⟨0, 0, ufiles.length⟩
    simpa using h0
  refine ⟨?_, ?_, ?_, hmap, ?_, ?_, ?_, ?_, ?_, ?_, humap, ?_, ?_⟩
  · intro h
    have hok : dOk cfg run k = true := hsucc.symm.trans h
    simp [hdc, hfc, hok]
  · intro h
    have hok : dOk cfg run k = false := hsucc.symm.trans h
    simp [hdc, hfc, hok]
  · rw [hpr]
    unfold dProgress
    rw [htot]
  · rw [hmap, map_range_head _ _ hn]
    norm_num
  · exact mul_ne_zero (one_div_ne_zero hcast) (by norm_num)
  · rw [hmap, map_range_getLast _ _ hn]
    have hpred : files.length - 1 + 1 = files.length := Nat.succ_pred_eq_of_pos hn
    rw [hpred, div_self hcast]
    norm_num
  · intro h
    have hok : uOk ucfg urun f = true := husucc.symm.trans h
    simp [hudc, hufc, hok]
  · intro h
    have hok : uOk ucfg urun f = false := husucc.symm.trans h
    simp [hudc, hufc, hok]
  · rw [hupr]
    unfold uProgress
    rw [hutot]
  · rw [humap, map_range_head _ _ hn']
    norm_num
  · rw [humap, map_range_getLast _ _ hn']
    have hpred : ufiles.length - 1 + 1 = ufiles.length := Nat.succ_pred_eq_of_pos hn'
    rw [hpred, div_self hcast']
    norm_num

/-- Concrete instantiation of `claim6_progress`. -/
theorem claim6_witness :
    ((_download_file dcfgW runOkW ⟨0, 0, 1⟩ "k").success = true →
        (_download_file dcfgW runOkW ⟨0, 0, 1⟩ "k").state.downloaded_count
          = (⟨0, 0, 1⟩ : DownloaderState).downloaded_count + 1 ∧
        (_download_file dcfgW runOkW ⟨0, 0, 1⟩ "k").state.failed_count
          = (⟨0, 0, 1⟩ : DownloaderState).failed_count) ∧
    ((_download_file dcfgW runOkW ⟨0, 0, 1⟩ "k").success = false →
        (_download_file dcfgW runOkW ⟨0, 0, 1⟩ "k").state.downloaded_count
          = (⟨0, 0, 1⟩ : DownloaderState).downloaded_count ∧
        (_download_file dcfgW runOkW ⟨0, 0, 1⟩ "k").state.failed_count
          = (⟨0, 0, 1⟩ : DownloaderState).failed_count + 1) ∧
    ((_download_file dcfgW runOkW ⟨0, 0, 1⟩ "k").printed_progress
        = (((_download_file dcfgW runOkW ⟨0, 0, 1⟩ "k").state.downloaded_count
              + (_download_file dcfgW runOkW ⟨0, 0, 1⟩ "k").state.failed_count : ℚ)
            / ((⟨0, 0, 1⟩ : DownloaderState).total_files : ℚ)) * 100) ∧
    (((drunItems dcfgW runOkW ⟨0, 0, (["a"] : List String).length⟩ ["a"]).2).map
          (fun s => s.printed_progress)
        = (List.range (["a"] : List String).length).map
            (fun i => (((i + 1 : ℕ) : ℚ) / ((["a"] : List String).length : ℚ)) * 100)) ∧
    ((((drunItems dcfgW runOkW ⟨0, 0, (["a"] : List String).length⟩ ["a"]).2).map
          (fun s => s.printed_progress)).head?
        = some (((1 : ℚ) / ((["a"] : List String).length : ℚ)) * 100)) ∧
    (((1 : ℚ) / ((["a"] : List String).length : ℚ)) * 100 ≠ 0) ∧
    ((((drunItems dcfgW runOkW ⟨0, 0, (["a"] : List String).length⟩ ["a"]).2).map
          (fun s => s.printed_progress)).getLast? = some 100) ∧
    ((_upload_file ucfgW runOkW ⟨0, 0, 1⟩ "f").success = true →
        (_upload_file ucfgW runOkW ⟨0, 0, 1⟩ "f").state.uploaded_count
          = (⟨0, 0, 1⟩ : UploaderState).uploaded_count + 1 ∧
        (_upload_file ucfgW runOkW ⟨0, 0, 1⟩ "f").state.failed_count
          = (⟨0, 0, 1⟩ : UploaderState).failed_count) ∧
    ((_upload_file ucfgW runOkW ⟨0, 0, 1⟩ "f").success = false →
        (_upload_file ucfgW runOkW ⟨0, 0, 1⟩ "f").state.uploaded_count
          = (⟨0, 0, 1⟩ : UploaderState).uploaded_count ∧
        (_upload_file ucfgW runOkW ⟨0, 0, 1⟩ "f").state.failed_count
          = (⟨0, 0, 1⟩ : UploaderState).failed_count + 1) ∧
    ((_upload_file ucfgW runOkW ⟨0, 0, 1⟩ "f").printed_progress
        = (((_upload_file ucfgW runOkW ⟨0, 0, 1⟩ "f").state.uploaded_count
              + (_upload_file ucfgW runOkW ⟨0, 0, 1⟩ "f").state.failed_count : ℚ)
            / ((⟨0, 0, 1⟩ : UploaderState).total_files : ℚ)) * 100) ∧
    (((urunItems ucfgW runOkW ⟨0, 0, (["u"] : List String).length⟩ ["u"]).2).map
          (fun s => s.printed_progress)
        = (List.range (["u"] : List String).length).map
            (fun i => (((i + 1 : ℕ) : ℚ) / ((["u"] : List String).length : ℚ)) * 100)) ∧
    ((((urunItems ucfgW runOkW ⟨0, 0, (["u"] : List String).length⟩ ["u"]).2).map
          (fun s => s.printed_progress)).head?
        = some (((1 : ℚ) / ((["u"] : List String).length : ℚ)) * 100)) ∧
    ((((urunItems ucfgW runOkW ⟨0, 0, (["u"] : List String).length⟩ ["u"]).2).map
          (fun s => s.printed_progress)).getLast? = some 100) :=
  claim6_progress dcfgW ucfgW runOkW runOkW ⟨0, 0, 1⟩ ⟨0, 0, 1⟩ "k" "f" ["a"] ["u"]
    (by decide) (by decide)

theorem get_of_map_range {α β : Type} (f : α → β) (l : List α) (g : ℕ → β) (n : ℕ)
    (h : l.map f = (List.range n).map g) (i : ℕ) (hi : i < l.length) :
    f (l.get ⟨i, hi⟩) = g i := by
  have hlen : l.length = n := by
    have h' := congrArg List.length h
    simpa using h'
  have h1 := congrArg (fun t => t[i]?) h
  simp only [List.getElem?_map] at h1
  rw [List.getElem?_eq_getElem hi] at h1
  have hi' : i < (List.range n).length := by
    rw [List.length_range]
    omega
  rw [List.getElem?_eq_getElem hi'] at h1
  simp only [Option.map_some', List.getElem_range, Option.some.injEq] at h1
  simpa [List.get_eq_getElem] using h1

/-- The sequence of counter states after each completion of a fresh
download run over `files` (one state per completion, in order). -/
def dTrace (cfg : DownloaderCfg) (run : List String → ProcBehavior)
    (files : List String) : List DownloaderState :=
  ((drunItems cfg run ⟨0, 0, files.length⟩ files).2).map (fun s => s.state)

/-- The sequence of counter states after each completion of a fresh
upload run over `files`. -/
def uTrace (cfg : UploaderCfg) (run : List String → ProcBehavior)
    (files : List String) : List UploaderState :=
  ((urunItems cfg run ⟨0, 0, files.length⟩ files).2).map (fun s => s.state)

theorem dTrace_sum (cfg : DownloaderCfg) (run : List String → ProcBehavior)
    (files : List String) (i : ℕ) (hi : i < (dTrace cfg run files).length) :
    ((dTrace cfg run files).get ⟨i, hi⟩).downloaded_count
      + ((dTrace cfg run files).get ⟨i, hi⟩).failed_count = i + 1 := by
  have hmap : (dTrace cfg run files).map
        (fun s => s.downloaded_count + s.failed_count)
      = (List.range files.length).map (fun i => i + 1) := by
    have h0 := drun_sum_trace cfg run files ⟨0, 0, files.length⟩
    have h1 : (dTrace cfg run files).map (fun s => s.downloaded_count + s.failed_count)
        = ((drunItems cfg run ⟨0, 0, files.length⟩ files).2).map
            (fun s => s.state.downloaded_count + s.state.failed_count) := by
      unfold dTrace
      rw [List.map_map]
      rfl
    rw [h1, h0]
    apply List.map_congr_left
    intro j _
    simp
  exact get_of_map_range (fun s => s.downloaded_count + s.failed_count)
    (dTrace cfg run files) (fun i => i + 1) files.length hmap i hi

theorem uTrace_sum (cfg : UploaderCfg) (run : List String → ProcBehavior)
    (files : List String) (i : ℕ) (hi : i < (uTrace cfg run files).length) :
    ((uTrace cfg run files).get ⟨i, hi⟩).uploaded_count
      + ((uTrace cfg run files).get ⟨i, hi⟩).failed_count = i + 1 := by
  have hmap : (uTrace cfg run files).map
        (fun s => s.uploaded_count + s.failed_count)
      = (List.range files.length).map (fun i => i + 1) := by
    have h0 := urun_sum_trace cfg run files ⟨0, 0, files.length⟩
    have h1 : (uTrace cfg run files).map (fun s => s.uploaded_count + s.failed_count)
        = ((urunItems cfg run ⟨0, 0, files.length⟩ files).2).map
            (fun s => s.state.uploaded_count + s.state.failed_count) := by
      unfold uTrace
      rw [List.map_map]
      rfl
    rw [h1, h0]
    apply List.map_congr_left
    intro j _
    simp
  exact get_of_map_range (fun s => s.uploaded_count + s.failed_count)
    (uTrace cfg run files) (fun i => i + 1) files.length hmap i hi

theorem dTrace_total (cfg : DownloaderCfg) (run : List String → ProcBehavior)
    (files : List String) :
    ∀ s ∈ dTrace cfg run files, s.total_files = files.length := by
  intro s hs
  unfold dTrace at hs
  obtain ⟨t, ht, rfl⟩ := List.mem_map.mp hs
  exact drun_total_trace cfg run files ⟨0, 0, files.length⟩ t ht

theorem urun_total_trace (cfg : UploaderCfg) (run : List String → ProcBehavior) :
    ∀ (files : List String) (st : UploaderState),
      ∀ s ∈ (urunItems cfg run st files).2, s.state.total_files = st.total_files := by
  intro files
  induction files with
  | nil => intro st s hs; simp [urunItems] at hs
  | cons f rest ih =>
      intro st s hs
      have htot := (uStep cfg run st f).2.2.1
      simp only [urunItems, List.mem_cons] at hs
      rcases hs with h | h
      · rw [h]; exact htot
      · have hmid := ih (_upload_file cfg run st f).state s h
        rw [hmid]; exact htot

theorem uTrace_total (cfg : UploaderCfg) (run : List String → ProcBehavior)
    (files : List String) :
    ∀ s ∈ uTrace cfg run files, s.total_files = files.length := by
  intro s hs
  unfold uTrace at hs
  obtain ⟨t, ht, rfl⟩ := List.mem_map.mp hs
  exact urun_total_trace cfg run files ⟨0, 0, files.length⟩ t ht

theorem dTrace_length (cfg : DownloaderCfg) (run : List String → ProcBehavior)
    (files : List String) : (dTrace cfg run files).length = files.length := by
  unfold dTrace
  rw [List.length_map]
  exact drun_len cfg run files _

theorem uTrace_length (cfg : UploaderCfg) (run : List String → ProcBehavior)
    (files : List String) : (uTrace cfg run files).length = files.length := by
  unfold uTrace
  rw [List.length_map]
  exact urun_len cfg run files _

/-- C7 (confirmed): over a dispatch run starting from
`succeeded = 0, failed = 0, total = N`, after the `i`-th completion the
counters sum to `i + 1`, so `succeeded + failed ≤ total` holds after
every completion and equality holds exactly at the last one; each
completion changes exactly one of the two counters by one (the chain of
states) — for both directions. -/
theorem claim7_invariant (cfg : DownloaderCfg) (ucfg : UploaderCfg)
    (run urun : List String → ProcBehavior)
    (files ufiles : List String) (hne : files ≠ []) (hne' : ufiles ≠ []) :
    ((dTrace cfg run files).length = files.length ∧
      (∀ i : Fin (dTrace cfg run files).length,
        ((dTrace cfg run files).get i).total_files = files.length ∧
        ((dTrace cfg run files).get i).downloaded_count
            + ((dTrace cfg run files).get i).failed_count = i.val + 1 ∧
        ((dTrace cfg run files).get i).downloaded_count
            + ((dTrace cfg run files).get i).failed_count ≤ files.length ∧
        (((dTrace cfg run files).get i).downloaded_count
            + ((dTrace cfg run files).get i).failed_count = files.length
          ↔ i.val + 1 = files.length)) ∧
      List.Chain dOneChange ⟨0, 0, files.length⟩ (dTrace cfg run files)) ∧
    ((uTrace ucfg urun ufiles).length = ufiles.length ∧
      (∀ i : Fin (uTrace ucfg urun ufiles).length,
        ((uTrace ucfg urun ufiles).get i).total_files = ufiles.length ∧
        ((uTrace ucfg urun ufiles).get i).uploaded_count
            + ((uTrace ucfg urun ufiles).get i).failed_count = i.val + 1 ∧
        ((uTrace ucfg urun ufiles).get i).uploaded_count
            + ((uTrace ucfg urun ufiles).get i).failed_count ≤ ufiles.length ∧
        (((uTrace ucfg urun ufiles).get i).uploaded_count
            + ((uTrace ucfg urun ufiles).get i).failed_count = ufiles.length
          ↔ i.val + 1 = ufiles.length)) ∧
      List.Chain uOneChange ⟨0, 0, ufiles.length⟩ (uTrace ucfg urun ufiles)) := by
  have hdlen := dTrace_length cfg run files
  have hulen := uTrace_length ucfg urun ufiles
  constructor
  · refine ⟨hdlen, ?_, ?_⟩
    · intro i
      have hsum := dTrace_sum cfg run files i.val i.isLt
      have htot := dTrace_total cfg run files _ (List.get_mem _ i.val i.isLt)
      simp only [Fin.eta] at hsum htot
      have hbound : i.val + 1 ≤ files.length := by
        have := i.isLt
        omega
      exact ⟨htot, hsum, by omega, by omega⟩
    · unfold dTrace
      exact drun_chain cfg run files ⟨0, 0, files.length⟩
  · refine ⟨hulen, ?_, ?_⟩
    · intro i
      have hsum := uTrace_sum ucfg urun ufiles i.val i.isLt
      have htot := uTrace_total ucfg urun ufiles _ (List.get_mem _ i.val i.isLt)
      simp only [Fin.eta] at hsum htot
      have hbound : i.val + 1 ≤ ufiles.length := by
        have := i.isLt
        omega
      exact ⟨htot, hsum, by omega, by omega⟩
    · unfold uTrace
      exact urun_chain ucfg urun ufiles ⟨0, 0, ufiles.length⟩

/-- Concrete instantiation of `claim7_invariant`. -/
theorem claim7_witness :
    ((dTrace dcfgW runOkW ["a"]).length = (["a"] : List String).length ∧
      (∀ i : Fin (dTrace dcfgW runOkW ["a"]).length,
        ((dTrace dcfgW runOkW ["a"]).get i).total_files = (["a"] : List String).length ∧
        ((dTrace dcfgW runOkW ["a"]).get i).downloaded_count
            + ((dTrace dcfgW runOkW ["a"]).get i).failed_count = i.val + 1 ∧
        ((dTrace dcfgW runOkW ["a"]).get i).downloaded_count
            + ((dTrace dcfgW runOkW ["a"]).get i).failed_count
            ≤ (["a"] : List String).length ∧
        (((dTrace dcfgW runOkW ["a"]).get i).downloaded_count
            + ((dTrace dcfgW runOkW ["a"]).get i).failed_count
            = (["a"] : List String).length
          ↔ i.val + 1 = (["a"] : List String).length)) ∧
      List.Chain dOneChange ⟨0, 0, (["a"] : List String).length⟩
        (dTrace dcfgW runOkW ["a"])) ∧
    ((uTrace ucfgW runOkW ["u"]).length = (["u"] : List String).length ∧
      (∀ i : Fin (uTrace ucfgW runOkW ["u"]).length,
        ((uTrace ucfgW runOkW ["u"]).get i).total_files = (["u"] : List String).length ∧
        ((uTrace ucfgW runOkW ["u"]).get i).uploaded_count
            + ((uTrace ucfgW runOkW ["u"]).get i).failed_count = i.val + 1 ∧
        ((uTrace ucfgW runOkW ["u"]).get i).uploaded_count
            + ((uTrace ucfgW runOkW ["u"]).get i).failed_count
            ≤ (["u"] : List String).length ∧
        (((uTrace ucfgW runOkW ["u"]).get i).uploaded_count
            + ((uTrace ucfgW runOkW ["u"]).get i).failed_count
            = (["u"] : List String).length
          ↔ i.val + 1 = (["u"] : List String).length)) ∧
      List.Chain uOneChange ⟨0, 0, (["u"] : List String).length⟩
        (uTrace ucfgW runOkW ["u"])) :=
  claim7_invariant dcfgW ucfgW runOkW runOkW ["a"] ["u"] (by decide) (by decide)

/-- Fixture: a file-existence predicate accepting only `"x.txt"`. -/
def isFileXW : String → Bool := fun s => s == "x.txt"

/-- Fixture: a process behaviour agreeing with `runOkW` on the upload
command of `"x.txt"` and raising everywhere else. -/
def runMixW : List String → ProcBehavior :=
  fun cmd => if cmd = uploadCmd ucfgW "x.txt" then ProcBehavior.runs 1 0 "" ""
    else ProcBehavior.raises "nope"

/-- C8 (confirmed): every upload input path rejected by the
`os.path.isfile` filter is excluded before dispatch — the dispatched
work list is exactly `file_list.filter isFile`, counts and the total are
taken over it alone, every error entry stems from a surviving file, the
result does not depend on the backend behaviour for non-surviving
paths, and when nothing survives the result is
`{success := 0, failed := 0, errors := []}`. -/
theorem claim8_upload_filter (cfg : UploaderCfg) (isFile : String → Bool)
    (run run₂ : List String → ProcBehavior) (elapsed : ℚ) (file_list : List String)
    (hagree : ∀ f ∈ file_list.filter isFile,
      run₂ (uploadCmd cfg f) = run (uploadCmd cfg f)) :
    (file_list.filter isFile ≠ [] →
      (upload_files cfg isFile run elapsed file_list).success
          + (upload_files cfg isFile run elapsed file_list).failed
          = (file_list.filter isFile).length) ∧
    (∀ e ∈ (upload_files cfg isFile run elapsed file_list).errors,
      ∃ f ∈ file_list.filter isFile, e.1 = pathStr f ∨ e.1 = f) ∧
    (upload_files cfg isFile run₂ elapsed file_list
        = upload_files cfg isFile run elapsed file_list) ∧
    (file_list.filter isFile = [] →
      upload_files cfg isFile run elapsed file_list = ⟨0, 0, [], none⟩) := by
  refine ⟨?_, ?_, ?_, ?_⟩
  · intro hne
    obtain ⟨hs, hf, -, -⟩ := upload_files_spec cfg isFile run elapsed file_list hne
    rw [hs, hf]
    exact filter_length_split _ _
  · intro e he
    by_cases hv : file_list.filter isFile = []
    · have hz : upload_files cfg isFile run elapsed file_list = ⟨0, 0, [], none⟩ := by
        simp only [upload_files, hv]
        rfl
      rw [hz] at he
      simp at he
    · have hE := isEmpty_false_of_ne_nil hv
      have herr : (upload_files cfg isFile run elapsed file_list).errors
          = collectErrors ((urunItems cfg run
              ⟨0, 0, (file_list.filter isFile).length⟩ (file_list.filter isFile)).2) := by
        simp [upload_files, hE]
      rw [herr] at he
      obtain ⟨s, hsmem, -, hse⟩ := collectErrors_mem _ e he
      obtain ⟨f, hfmem, hfi⟩ := urun_items_mem cfg run _ _ s hsmem
      refine ⟨f, hfmem, ?_⟩
      rw [hse]
      exact hfi
  · by_cases hv : file_list.filter isFile = []
    · have h1 : upload_files cfg isFile run₂ elapsed file_list = ⟨0, 0, [], none⟩ := by
        simp only [upload_files, hv]
        rfl
      have h2 : upload_files cfg isFile run elapsed file_list = ⟨0, 0, [], none⟩ := by
        simp only [upload_files, hv]
        rfl
      rw [h1, h2]
    · have hE := isEmpty_false_of_ne_nil hv
      have hcong := urun_congr cfg run run₂ (file_list.filter isFile)
        ⟨0, 0, (file_list.filter isFile).length⟩ hagree
      simp [upload_files, hE, hcong]
  · intro hv
    simp only [upload_files, hv]
    rfl

/-- Concrete instantiation of `claim8_upload_filter`: `"missing"` is
filtered out and the result agrees with a backend that differs on it. -/
theorem claim8_witness :
    ((["x.txt", "missing"] : List String).filter isFileXW ≠ [] →
      (upload_files ucfgW isFileXW runOkW 0 ["x.txt", "missing"]).success
          + (upload_files ucfgW isFileXW runOkW 0 ["x.txt", "missing"]).failed
          = ((["x.txt", "missing"] : List String).filter isFileXW).length) ∧
    (∀ e ∈ (upload_files ucfgW isFileXW runOkW 0 ["x.txt", "missing"]).errors,
      ∃ f ∈ (["x.txt", "missing"] : List String).filter isFileXW,
        e.1 = pathStr f ∨ e.1 = f) ∧
    (upload_files ucfgW isFileXW runMixW 0 ["x.txt", "missing"]
        = upload_files ucfgW isFileXW runOkW 0 ["x.txt", "missing"]) ∧
    ((["x.txt", "missing"] : List String).filter isFileXW = [] →
      upload_files ucfgW isFileXW runOkW 0 ["x.txt", "missing"] = ⟨0, 0, [], none⟩) :=
  claim8_upload_filter ucfgW isFileXW runOkW runMixW 0 ["x.txt", "missing"] (by decide)

/-- C9 (confirmed): destinations are derived from the basename only —
the uploaded S3 key is the stored (trailing-slash-stripped) prefix
joined with `Path(local_file).name`, or just the basename when the
stripped prefix is empty, and each downloaded key is written to
`output_dir / Path(s3_key).name` — so two work items sharing a basename
map to the same destination. -/
theorem claim9_basename_dest (bucket rawPre outdir : String) (mw : Nat)
    (profile : Option String) (f1 f2 k1 k2 : String)
    (hf : pathName f1 = pathName f2) (hk : pathName k1 = pathName k2) :
    ((S3Uploader_init bucket mw rawPre profile).s3_pre = rstripSlash rawPre) ∧
    (∀ g : String, s3KeyFor (rstripSlash rawPre) g
        = if rstripSlash rawPre != "" then rstripSlash rawPre ++ "/" ++ pathName g
          else pathName g) ∧
    (s3KeyFor (S3Uploader_init bucket mw rawPre profile).s3_pre f1
        = s3KeyFor (S3Uploader_init bucket mw rawPre profile).s3_pre f2) ∧
    (uploadCmd (S3Uploader_init bucket mw rawPre profile) f1
        = _build_aws_command (S3Uploader_init bucket mw rawPre profile) (pathStr f1)
            (s3KeyFor (rstripSlash rawPre) f1)) ∧
    (downloadDest outdir k1 = downloadDest outdir k2) := by
  refine ⟨rfl, fun g => rfl, ?_, rfl, ?_⟩
  · simp only [s3KeyFor, S3Uploader_init, hf]
  · simp only [downloadDest, hk]

/-- Concrete instantiation of `claim9_basename_dest`: `"a/x.txt"` and
`"b/x.txt"` collide on the upload key, `"p/q/z.bin"` and `"z.bin"` on
the download destination. -/
theorem claim9_witness :
    ((S3Uploader_init "my-bucket" 5 "uploads/" none).s3_pre = rstripSlash "uploads/") ∧
    (∀ g : String, s3KeyFor (rstripSlash "uploads/") g
        = if rstripSlash "uploads/" != "" then rstripSlash "uploads/" ++ "/" ++ pathName g
          else pathName g) ∧
    (s3KeyFor (S3Uploader_init "my-bucket" 5 "uploads/" none).s3_pre "a/x.txt"
        = s3KeyFor (S3Uploader_init "my-bucket" 5 "uploads/" none).s3_pre "b/x.txt") ∧
    (uploadCmd (S3Uploader_init "my-bucket" 5 "uploads/" none) "a/x.txt"
        = _build_aws_command (S3Uploader_init "my-bucket" 5 "uploads/" none)
            (pathStr "a/x.txt") (s3KeyFor (rstripSlash "uploads/") "a/x.txt")) ∧
    (downloadDest "./downloads" "p/q/z.bin" = downloadDest "./downloads" "z.bin") :=
  claim9_basename_dest "my-bucket" "uploads/" "./downloads" 5 none
    "a/x.txt" "b/x.txt" "p/q/z.bin" "z.bin" (by decide) (by decide)

/-- Fixture: a listing behaviour whose single output line carries an
object key with consecutive internal spaces. -/
def runListW : List String → ProcBehavior :=
  fun _ => ProcBehavior.runs 1 0 "2023-12-01 10:30:45     123 my  file.txt" ""

/-- C10 (confirmed): a listing line with fewer than four
whitespace-separated fields is silently discarded, and the object key is
rebuilt by joining the fields from the fourth onward with single
spaces — so a key containing consecutive spaces is corrupted (its
internal whitespace collapsed) before becoming a work item. -/
theorem claim10_listing_parse :
    (∀ (pat : Option (String → Bool)) (line : String),
        (pySplit line).length < 4 → parseListLine pat line = none) ∧
    (_list_s3_files dcfgW runListW "" none = ["my file.txt"]) ∧
    (("my file.txt" : String) ≠ "my  file.txt") := by
  refine ⟨?_, by decide, by decide⟩
  intro pat line h
  have h4 : ¬(4 ≤ (pySplit line).length) := by omega
  unfold parseListLine
  by_cases hs : (pyStrip line != "") = true
  · simp [hs, h4]
  · simp [hs]

/-- Concrete instantiation of `claim10_listing_parse`: a three-field
line is discarded, and the double-spaced key comes out collapsed. -/
theorem claim10_witness :
    parseListLine none "2023-12-01 10:30:45 123" = none ∧
    _list_s3_files dcfgW runListW "" none = ["my file.txt"] ∧
    ("my file.txt" : String) ≠ "my  file.txt" :=
  ⟨claim10_listing_parse.1 none "2023-12-01 10:30:45 123" (by decide),
    claim10_listing_parse.2.1, claim10_listing_parse.2.2⟩
